import Mathlib

/-!
# Verification of the fast-zod validation engine

Shallow embedding of the fast-zod schema-validation library
(src/types.ts, src/base.ts, src/primitives.ts, src/object.ts, src/array.ts,
src/enum.ts, src/coerce.ts, src/index.ts) and proofs about its parsing
behaviour.

JavaScript runtime values are modelled by `Value`; each schema class's
`_parse(data, ctx)` method becomes a Lean function of type
`Value → Ctx → Except Exc Value`, where `Exc.validation` models a thrown
`ValidationError` and `Exc.other` models any other thrown exception.
-/

namespace FastZod

/-- JavaScript number: NaN, the two infinities, or a finite value
(modelled as a rational; -0 is identified with 0). -/
inductive JSNum where
  | nan
  | inf
  | ninf
  | fin (q : ℚ)
deriving DecidableEq

/-- JS `<` on numbers: any comparison involving NaN is false. -/
def JSNum.ltb : JSNum → JSNum → Bool
  | .nan, _ => false
  | _, .nan => false
  | .fin a, .fin b => decide (a < b)
  | .fin _, .inf => true
  | .fin _, .ninf => false
  | .inf, _ => false
  | .ninf, .ninf => false
  | .ninf, _ => true

/-- JS `<=` on numbers: any comparison involving NaN is false. -/
def JSNum.leb : JSNum → JSNum → Bool
  | .nan, _ => false
  | _, .nan => false
  | .fin a, .fin b => decide (a ≤ b)
  | .fin _, .inf => true
  | .fin _, .ninf => false
  | .inf, .inf => true
  | .inf, _ => false
  | .ninf, _ => true

/-- JS `>` on numbers. -/
def JSNum.gtb (a b : JSNum) : Bool := JSNum.ltb b a

/-- JS `>=` on numbers. -/
def JSNum.geb (a b : JSNum) : Bool := JSNum.leb b a

/-- `Number.isNaN`. -/
def JSNum.isNaN : JSNum → Bool
  | .nan => true
  | _ => false

/-- `Number.isFinite`. -/
def JSNum.isFinite : JSNum → Bool
  | .fin _ => true
  | _ => false

/-- `Number.isInteger`. -/
def JSNum.isInteger : JSNum → Bool
  | .fin q => decide (q.den = 1)
  | _ => false

/-- Truncation toward zero of a rational, as used by the JS `%` operator. -/
def truncQ (q : ℚ) : ℤ := if 0 ≤ q then ⌊q⌋ else ⌈q⌉

/-- The JS remainder `a % m` on finite operands with `m ≠ 0`. -/
def jsFmod (a m : ℚ) : ℚ := a - m * (truncQ (a / m) : ℚ)

/-- The JS test `data % m !== 0`.  When either operand is NaN, the dividend is
infinite, or the divisor is `0`, `data % m` is NaN, and `NaN !== 0` holds;
`x % ±Infinity = x` for finite `x`. -/
def JSNum.modNonzero : JSNum → JSNum → Bool
  | .fin a, .fin m => if m = 0 then true else decide (jsFmod a m ≠ 0)
  | .fin a, .inf => decide (a ≠ 0)
  | .fin a, .ninf => decide (a ≠ 0)
  | _, _ => true

/-- One segment of an issue path: an object key or an array/collection index. -/
inductive Seg where
  | key (s : String)
  | idx (n : Nat)
deriving DecidableEq

/-- `interface Issue` (src/types.ts, packed as the second document of
src/src/index.test.ts): one structured validation failure
`{code, path: (string | number)[], message, expected?, received?}`. -/
structure Issue where
  code : String
  path : List Seg
  message : String
  expected : Option String
  received : Option String
deriving DecidableEq

/-- A thrown JS exception: either a `ValidationError` (src/types.ts: a class
carrying the ordered list of issues exposed as `.issues`, with
`ValidationError.fromIssue(issue)` wrapping a single issue) or any other
exception, which validation logic must not intercept (`instanceof
ValidationError` checks at the catch sites distinguish the two). -/
inductive Exc where
  | validation (issues : List Issue)
  | other (e : String)
deriving DecidableEq

/-- A JavaScript runtime value, as far as the validators observe it. -/
inductive Value where
  | str (s : String)
  | num (n : JSNum)
  | bool (b : Bool)
  | bigint (i : ℤ)
  | null
  | undefV
  | obj (fields : List (String × Value))
  | arr (elems : List Value)
  | jsMap (entries : List (Value × Value))
  | jsSet (elems : List Value)

/-- `ParseContext` (src/types.ts): the path accumulated so far
(`ctx.path`); the optional `parent` reference, which no `_parse` reads, is
omitted. -/
abbrev Ctx := List Seg

/-- The type of a compiled `_parse(data, ctx)` method. -/
abbrev Parser := Value → Ctx → Except Exc Value

/-- JS `typeof` on our value model (`typeof null` is `"object"`). -/
def jsTypeof : Value → String
  | .str _ => "string"
  | .num _ => "number"
  | .bool _ => "boolean"
  | .bigint _ => "bigint"
  | .null => "object"
  | .undefV => "undefined"
  | .obj _ => "object"
  | .arr _ => "object"
  | .jsMap _ => "object"
  | .jsSet _ => "object"

/-- `ErrorCustomizer` (src/types.ts): a fixed message string or a function
from issue metadata to an optional override message. -/
inductive ErrorCustomizer where
  | fixed (msg : String)
  | computed (f : Issue → Option String)

/-- `BaseSchema._fail` (src/base.ts lines 43-59): apply the node's error
customizer to compute the final message, then throw a `ValidationError`
holding exactly one issue. -/
def failWith (cust : Option ErrorCustomizer) (code : String) (message : String)
    (ctx : Ctx) (expected received : Option String) : Except Exc Value :=
  let finalMessage :=
    match cust with
    | none => message
    | some (.fixed s) => s
    | some (.computed f) =>
      match f ⟨code, ctx, message, expected, received⟩ with
      | some c => c
      | none => message
  .error (.validation [⟨code, ctx, finalMessage, expected, received⟩])

/-! ## JS string primitives

`String.prototype.trim`, `toLowerCase`, `toUpperCase`, `startsWith`,
`endsWith` and `includes`, modelled per character on the ASCII fragment of
their Unicode behaviour. -/

/-- Whitespace recognised by `String.prototype.trim` (the common WhiteSpace
and LineTerminator code points). -/
def isJsWs (c : Char) : Bool :=
  c.toNat = 9 ∨ c.toNat = 10 ∨ c.toNat = 11 ∨ c.toNat = 12 ∨ c.toNat = 13 ∨
  c.toNat = 32 ∨ c.toNat = 160 ∨ c.toNat = 8232 ∨ c.toNat = 8233 ∨ c.toNat = 65279

/-- Per-character `toLowerCase` (ASCII fragment): map `A`-`Z` to `a`-`z`. -/
def jsToLower (c : Char) : Char :=
  if 65 ≤ c.toNat ∧ c.toNat ≤ 90 then Char.ofNat (c.toNat + 32) else c

/-- Per-character `toUpperCase` (ASCII fragment): map `a`-`z` to `A`-`Z`. -/
def jsToUpper (c : Char) : Char :=
  if 97 ≤ c.toNat ∧ c.toNat ≤ 122 then Char.ofNat (c.toNat - 32) else c

/-- `trim` on a character list: drop whitespace from both ends. -/
def jsTrimL (l : List Char) : List Char :=
  ((l.dropWhile isJsWs).reverse.dropWhile isJsWs).reverse

/-- `String.prototype.trim`. -/
def jsTrimStr (s : String) : String := ⟨jsTrimL s.data⟩

/-- `String.prototype.toLowerCase`. -/
def jsLowerStr (s : String) : String := ⟨s.data.map jsToLower⟩

/-- `String.prototype.toUpperCase`. -/
def jsUpperStr (s : String) : String := ⟨s.data.map jsToUpper⟩

/-- `String.prototype.startsWith`. -/
def jsStartsWith (s pre : String) : Bool := pre.data.isPrefixOf s.data

/-- `String.prototype.endsWith`. -/
def jsEndsWith (s suf : String) : Bool := suf.data.isSuffixOf s.data

/-- `String.prototype.includes`. -/
def jsIncludes (s sub : String) : Bool := decide (List.IsInfix sub.data s.data)

/-- JS string length (`.length`), modelled as the number of characters. -/
def jsLength (s : String) : Nat := s.data.length

/-! ## StringSchema (src/primitives.ts lines 6-155) -/

/-- The configuration fields of `StringSchema`.  The `regex` field is an
opaque pattern matcher (a test function) paired with its display text. -/
structure StringCfg where
  min : Option Nat
  max : Option Nat
  length : Option Nat
  regex : Option ((String → Bool) × String)
  includes : Option String
  startsWith : Option String
  endsWith : Option String
  trim : Bool
  toLowerCase : Bool
  toUpperCase : Bool
  errorCustomizer : Option ErrorCustomizer

/-- `new StringSchema()`: all constraints unset. -/
def stringDefault : StringCfg :=
  ⟨none, none, none, none, none, none, none, false, false, false, none⟩

/-- The normalization pass of `StringSchema._parse`: trim, then lower-case,
then upper-case, each when enabled (source lines 28-31). -/
def stringNormalize (cfg : StringCfg) (s : String) : String :=
  let s1 := if cfg.trim then jsTrimStr s else s
  let s2 := if cfg.toLowerCase then jsLowerStr s1 else s1
  if cfg.toUpperCase then jsUpperStr s2 else s2

/-- Run one optional constraint: when the option is set and violated,
produce the issue code and message for it. -/
def checkOpt {α : Type} (o : Option α) (bad : α → Bool) (mk : α → String × String) :
    Option (String × String) :=
  match o with
  | some a => if bad a then some (mk a) else none
  | none => none

/-- The sequential constraint checks of `StringSchema._parse`
(source lines 34-63): each `if` either throws via `_fail` or falls through
to the next, so the parse reports the first violated check.  Order and
codes exactly as in the source: exact length (`invalid_length`), min
(`too_small`), max (`too_big`), startsWith / endsWith / includes / regex
(all `invalid_string`). -/
def stringFirstViolation (cfg : StringCfg) (str : String) : Option (String × String) :=
  (checkOpt cfg.length (fun L => jsLength str != L)
    (fun L => ("invalid_length", "String must be exactly " ++ toString L ++ " characters"))).orElse fun _ =>
  (checkOpt cfg.min (fun m => decide (jsLength str < m))
    (fun m => ("too_small", "String must be at least " ++ toString m ++ " characters"))).orElse fun _ =>
  (checkOpt cfg.max (fun m => decide (jsLength str > m))
    (fun m => ("too_big", "String must be at most " ++ toString m ++ " characters"))).orElse fun _ =>
  (checkOpt cfg.startsWith (fun p => ! jsStartsWith str p)
    (fun p => ("invalid_string", "String must start with \"" ++ p ++ "\""))).orElse fun _ =>
  (checkOpt cfg.endsWith (fun p => ! jsEndsWith str p)
    (fun p => ("invalid_string", "String must end with \"" ++ p ++ "\""))).orElse fun _ =>
  (checkOpt cfg.includes (fun p => ! jsIncludes str p)
    (fun p => ("invalid_string", "String must include \"" ++ p ++ "\""))).orElse fun _ =>
  (checkOpt cfg.regex (fun r => ! r.1 str)
    (fun r => ("invalid_string", "String must match pattern " ++ r.2)))

/-- `StringSchema._parse`: type check, normalization, then the ordered
constraint checks, returning the normalized string on success. -/
def stringParse (cfg : StringCfg) : Parser := fun data ctx =>
  match data with
  | .str s =>
    let str := stringNormalize cfg s
    match stringFirstViolation cfg str with
    | some cm => failWith cfg.errorCustomizer cm.1 cm.2 ctx none none
    | none => .ok (.str str)
  | other =>
    failWith cfg.errorCustomizer "invalid_type"
      ("Expected string, received " ++ jsTypeof other) ctx
      (some "string") (some (jsTypeof other))

/-! ## NumberSchema (src/primitives.ts lines 157-323) -/

/-- The configuration fields of `NumberSchema`. -/
structure NumberCfg where
  min : Option JSNum
  max : Option JSNum
  int : Bool
  positive : Bool
  negative : Bool
  nonnegative : Bool
  nonpositive : Bool
  finite : Bool
  multipleOf : Option JSNum
  errorCustomizer : Option ErrorCustomizer

/-- `new NumberSchema()`: all constraints unset. -/
def numberDefault : NumberCfg :=
  ⟨none, none, false, false, false, false, false, false, none, none⟩

/-- Rendering of a JS number inside a template literal.  NaN and the
infinities render as in JS; finite values use Lean's rational rendering
(display-only: no proved claim depends on these message texts). -/
def JSNum.toDisplay : JSNum → String
  | .nan => "NaN"
  | .inf => "Infinity"
  | .ninf => "-Infinity"
  | .fin q => toString q

/-- The sequential constraint checks of `NumberSchema._parse` (source
lines 181-219), run after the type and NaN gates, in source order. -/
def numberFirstViolation (cfg : NumberCfg) (d : JSNum) : Option (String × String) :=
  (if cfg.finite ∧ ¬ d.isFinite then some ("not_finite", "Number must be finite") else none).orElse fun _ =>
  (if cfg.int ∧ ¬ d.isInteger then some ("invalid_type", "Expected integer") else none).orElse fun _ =>
  (if cfg.positive ∧ d.leb (.fin 0) then some ("too_small", "Number must be positive") else none).orElse fun _ =>
  (if cfg.negative ∧ d.geb (.fin 0) then some ("too_big", "Number must be negative") else none).orElse fun _ =>
  (if cfg.nonnegative ∧ d.ltb (.fin 0) then some ("too_small", "Number must be non-negative") else none).orElse fun _ =>
  (if cfg.nonpositive ∧ d.gtb (.fin 0) then some ("too_big", "Number must be non-positive") else none).orElse fun _ =>
  (checkOpt cfg.min (fun m => d.ltb m)
    (fun m => ("too_small", "Number must be >= " ++ m.toDisplay))).orElse fun _ =>
  (checkOpt cfg.max (fun m => d.gtb m)
    (fun m => ("too_big", "Number must be <= " ++ m.toDisplay))).orElse fun _ =>
  (checkOpt cfg.multipleOf (fun m => d.modNonzero m)
    (fun m => ("not_multiple_of", "Number must be a multiple of " ++ m.toDisplay)))

/-- `NumberSchema._parse`: type check, NaN rejection (`invalid_type`,
before every configured constraint), then the ordered constraint checks;
returns the input number unchanged on success. -/
def numberParse (cfg : NumberCfg) : Parser := fun data ctx =>
  match data with
  | .num d =>
    if d.isNaN then
      failWith cfg.errorCustomizer "invalid_type" "Expected number, received NaN" ctx none none
    else
      match numberFirstViolation cfg d with
      | some cm => failWith cfg.errorCustomizer cm.1 cm.2 ctx none none
      | none => .ok (.num d)
  | other =>
    failWith cfg.errorCustomizer "invalid_type"
      ("Expected number, received " ++ jsTypeof other) ctx
      (some "number") (some (jsTypeof other))

/-- `BooleanSchema._parse` (src/primitives.ts lines 325-336). -/
def booleanParse (cust : Option ErrorCustomizer) : Parser := fun data ctx =>
  match data with
  | .bool b => .ok (.bool b)
  | other =>
    failWith cust "invalid_type" ("Expected boolean, received " ++ jsTypeof other) ctx
      (some "boolean") (some (jsTypeof other))

/-- `AnySchema._parse` (src/primitives.ts): accept anything unchanged. -/
def anyParse : Parser := fun data _ => .ok data

/-! ## Entry points (src/base.ts lines 15-31) -/

/-- `ParseResult<T>` (src/types.ts):
`{success: true, data} | {success: false, error: ValidationError}`; the
failure case is represented by the error's issue list. -/
inductive ParseResult where
  | success (data : Value)
  | failure (error : List Issue)

/-- `BaseSchema.parse`: run `_parse` at the root context; a thrown
exception propagates. -/
def parseRoot (p : Parser) (data : Value) : Except Exc Value := p data []

/-- `BaseSchema.safeParse` (src/base.ts lines 21-31): run `_parse`; wrap a
normal return in a success result; catch a thrown `ValidationError` into a
failure result; rethrow anything else (`throw e`). -/
def safeParse (p : Parser) (data : Value) : Except Exc ParseResult :=
  match p data [] with
  | .ok v => .ok (.success v)
  | .error (.validation iss) => .ok (.failure iss)
  | .error (.other e) => .error (.other e)

/-! ## Modifier wrapper schemas (src/base.ts lines 108-266) -/

/-- A `D | (() => D)` argument of `default`/`catch`: a plain value or a
callable producing one. -/
inductive FnOrVal where
  | val (v : Value)
  | thunk (f : Unit → Value)

/-- Resolve a `D | (() => D)`: call it if it is a function. -/
def FnOrVal.resolve : FnOrVal → Value
  | .val v => v
  | .thunk f => f ()

/-- `OptionalSchema._parse`: pass `undefined` through, else delegate. -/
def optionalParse (inner : Parser) : Parser := fun data ctx =>
  match data with
  | .undefV => .ok .undefV
  | d => inner d ctx

/-- `NullableSchema._parse`: pass `null` through, else delegate. -/
def nullableParse (inner : Parser) : Parser := fun data ctx =>
  match data with
  | .null => .ok .null
  | d => inner d ctx

/-- `NullishSchema._parse`: pass `null`/`undefined` through, else delegate. -/
def nullishParse (inner : Parser) : Parser := fun data ctx =>
  match data with
  | .null => .ok .null
  | .undefV => .ok .undefV
  | d => inner d ctx

/-- `DefaultSchema._parse`: on `undefined` return the default (calling it if
callable) without invoking the child; else delegate. -/
def defaultParse (inner : Parser) (dflt : FnOrVal) : Parser := fun data ctx =>
  match data with
  | .undefV => .ok dflt.resolve
  | d => inner d ctx

/-- `CatchSchema._parse`: delegate; any thrown exception (bare `catch`) is
swallowed, substituting the catch value. -/
def catchParse (inner : Parser) (c : FnOrVal) : Parser := fun data ctx =>
  match inner data ctx with
  | .ok v => .ok v
  | .error _ => .ok c.resolve

/-- `TransformSchema._parse` (src/base.ts lines 224-227): delegate, then
apply the mapping; an exception thrown by the mapping propagates. -/
def transformParse (inner : Parser) (fn : Value → Except Exc Value) : Parser := fun data ctx =>
  match inner data ctx with
  | .ok v => fn v
  | .error e => .error e

/-- `RefineSchema._parse`: delegate, then raise one `custom` issue at the
current path when the predicate rejects; the predicate may also throw. -/
def refineParse (inner : Parser) (p : Value → Bool) (msg : String)
    (cust : Option ErrorCustomizer) : Parser := fun data ctx =>
  match inner data ctx with
  | .ok v => if p v then .ok v else failWith cust "custom" msg ctx none none
  | .error e => .error e

/-- `PipeSchema._parse`: run the first schema, feed its output to the second
on the same context. -/
def pipeParse (first second : Parser) : Parser := fun data ctx =>
  match first data ctx with
  | .ok v => second v ctx
  | .error e => .error e

/-! ## Derivation operations and their heap effect

A chainable method call `s.m(...)` in the source may read and write the
receiver object.  Each derivation below returns a pair
`(derived, receiverAfter)`: the node the call returns and the state of the
receiver object after the call (its state before the call when the source
body never assigns to `this`, as in every `_clone`-based method). -/

/-- `StringSchema.min` (src/primitives.ts lines 84-89): clone, set `_min`,
set the customizer when a non-empty message is given (JS truthiness);
the receiver is untouched. -/
def stringMin (s : StringCfg) (len : Nat) (message : Option String) :
    StringCfg × StringCfg :=
  let c1 := { s with min := some len }
  let c2 := match message with
    | some m => if m = "" then c1 else { c1 with errorCustomizer := some (.fixed m) }
    | none => c1
  (c2, s)

/-- `StringSchema.trim` (src/primitives.ts): clone with `_trim` enabled;
the receiver is untouched. -/
def stringTrim (s : StringCfg) : StringCfg × StringCfg :=
  ({ s with trim := true }, s)

/-- `NumberSchema.min` (src/primitives.ts): clone with `_min` set;
the receiver is untouched. -/
def numberMin (s : NumberCfg) (v : JSNum) (message : Option String) :
    NumberCfg × NumberCfg :=
  let c1 := { s with min := some v }
  let c2 := match message with
    | some m => if m = "" then c1 else { c1 with errorCustomizer := some (.fixed m) }
    | none => c1
  (c2, s)

/-- `BaseSchema.error` (src/base.ts lines 62-67): shallow-copy the node and
set `_errorCustomizer` on the copy; the receiver is untouched.  Modelled on
`StringSchema` as the representative node type. -/
def schemaError (s : StringCfg) (customizer : ErrorCustomizer) :
    StringCfg × StringCfg :=
  ({ s with errorCustomizer := some customizer }, s)

/-- `BaseSchema.optional`: wrap the receiver in a new `OptionalSchema`;
the receiver (as a parse capability) is untouched. -/
def optionalOf (inner : Parser) : Parser × Parser := (optionalParse inner, inner)

/-- `BaseSchema.nullable`: wrap in a new `NullableSchema`. -/
def nullableOf (inner : Parser) : Parser × Parser := (nullableParse inner, inner)

/-- `BaseSchema.default`: wrap in a new `DefaultSchema`. -/
def defaultOf (inner : Parser) (d : FnOrVal) : Parser × Parser :=
  (defaultParse inner d, inner)

/-- `BaseSchema.catch`: wrap in a new `CatchSchema`. -/
def catchOf (inner : Parser) (c : FnOrVal) : Parser × Parser :=
  (catchParse inner c, inner)

/-- `BaseSchema.transform`: wrap in a new `TransformSchema`. -/
def transformOf (inner : Parser) (fn : Value → Except Exc Value) : Parser × Parser :=
  (transformParse inner fn, inner)

/-- `BaseSchema.refine`: wrap in a new `RefineSchema` (fresh node, no
customizer). -/
def refineOf (inner : Parser) (p : Value → Bool) (msg : String) : Parser × Parser :=
  (refineParse inner p msg none, inner)

/-- `BaseSchema.pipe`: wrap both schemas in a new `PipeSchema`. -/
def pipeOf (first second : Parser) : Parser × Parser :=
  (pipeParse first second, first)

/-- `preprocess` (src/index.ts lines 296-305): rebind the given schema
object's `_parse` in place to run `fn` first, and return THE SAME object.
The pair is `(returned node, receiverAfter)`; both are the mutated parse
capability. -/
def preprocess (fn : Value → Value) (schemaParse : Parser) : Parser × Parser :=
  let mutated : Parser := fun data ctx => schemaParse (fn data) ctx
  (mutated, mutated)

/-! ## Literal, union and discriminated union (src/enum.ts) -/

/-- A JS primitive value, the admissible type of `LiteralSchema` values and
of discriminator map keys. -/
inductive Prim where
  | str (s : String)
  | num (n : JSNum)
  | bool (b : Bool)
  | bigint (i : ℤ)
  | null
  | undefV
deriving DecidableEq

/-- View a runtime value as a primitive; `none` for objects, arrays, Maps
and Sets, which compare by reference and so never equal a stored primitive. -/
def valueToPrim : Value → Option Prim
  | .str s => some (.str s)
  | .num n => some (.num n)
  | .bool b => some (.bool b)
  | .bigint i => some (.bigint i)
  | .null => some .null
  | .undefV => some .undefV
  | _ => none

/-- Display-only rendering of `JSON.stringify(v)` inside a template
literal (string escaping and object serialisation are approximated; no
proved claim depends on these texts). -/
def jsonDisplay : Value → String
  | .str s => "\"" ++ s ++ "\""
  | .num n => n.toDisplay
  | .bool true => "true"
  | .bool false => "false"
  | .null => "null"
  | .undefV => "undefined"
  | .bigint i => toString i
  | _ => "[object]"

/-- Display-only rendering of a stored primitive. -/
def primDisplay (p : Prim) : String :=
  jsonDisplay (match p with
    | .str s => .str s
    | .num n => .num n
    | .bool b => .bool b
    | .bigint i => .bigint i
    | .null => .null
    | .undefV => .undefV)

/-- Join rendered values with a separator, as `Array.prototype.join`. -/
def joinSep (sep : String) : List String → String
  | [] => ""
  | [s] => s
  | s :: rest => s ++ sep ++ joinSep sep rest

/-- `LiteralSchema._parse` (src/enum.ts lines 23-42): membership test of
the input against the constructor's value set (`Set.has`, SameValueZero),
modelled as the insertion-ordered list of values; `invalid_literal` on
a miss. -/
def literalParse (values : List Prim) (cust : Option ErrorCustomizer) : Parser :=
  fun data ctx =>
    let hit := match valueToPrim data with
      | some p => values.contains p
      | none => false
    if hit then .ok data
    else
      let expected := joinSep " | " (values.map primDisplay)
      failWith cust "invalid_literal"
        ("Expected " ++ expected ++ ", received " ++ jsonDisplay data) ctx
        (some expected) (some (jsonDisplay data))

/-- The alternative loop of `UnionSchema._parse` (src/enum.ts lines
145-166): try each option in declared order; return the first success; a
thrown `ValidationError` moves to the next option (its issues are collected
by the source but never used); any other exception propagates; when all
options fail, raise a single synthetic `invalid_union` issue. -/
def unionGo (options : List Parser) (data : Value) (ctx : Ctx)
    (cust : Option ErrorCustomizer) : Except Exc Value :=
  match options with
  | [] =>
    failWith cust "invalid_union" "Invalid input: does not match any union member" ctx
      none none
  | o :: rest =>
    match o data ctx with
    | .ok v => .ok v
    | .error (.validation _) => unionGo rest data ctx cust
    | .error (.other e) => .error (.other e)

/-- `UnionSchema._parse`. -/
def unionParse (options : List Parser) (cust : Option ErrorCustomizer) : Parser :=
  fun data ctx => unionGo options data ctx cust

/-- What the `DiscriminatedUnionSchema` constructor can observe of a member
schema's discriminator field: a `LiteralSchema` with its `_values`, or some
other schema kind (not indexable). -/
inductive ShapeField where
  | lit (values : List Prim)
  | nonlit

/-- A member passed to `DiscriminatedUnionSchema`: its parse capability and
its `_shape ?? shape` (absent on non-object schemas). -/
structure DUOption where
  parse : Parser
  shape : Option (List (String × ShapeField))

/-- Property lookup in a shape object (JS object keys are unique; first
match). -/
def shapeLookup (sh : List (String × ShapeField)) (k : String) : Option ShapeField :=
  (sh.find? (fun p => p.1 == k)).map (fun p => p.2)

/-- `Map.prototype.set` on the discriminator lookup table: overwrite an
existing key in place (keeping insertion order) or append. -/
def duMapSet (m : List (Prim × DUOption)) (k : Prim) (v : DUOption) :
    List (Prim × DUOption) :=
  if m.any (fun p => p.1 == k) then
    m.map (fun p => if p.1 == k then (k, v) else p)
  else m ++ [(k, v)]

/-- `Map.prototype.get` on the lookup table (SameValueZero on keys). -/
def duMapGet (m : List (Prim × DUOption)) (k : Prim) : Option DUOption :=
  (m.find? (fun p => p.1 == k)).map (fun p => p.2)

/-- The `DiscriminatedUnionSchema` constructor (src/enum.ts lines 176-198):
for each member with a shape whose discriminator field is a
`LiteralSchema`, register every literal value in the lookup map. -/
def duBuildMap (disc : String) (options : List DUOption) : List (Prim × DUOption) :=
  options.foldl (fun m o =>
    match o.shape with
    | some sh =>
      match shapeLookup sh disc with
      | some (.lit vs) => vs.foldl (fun acc v => duMapSet acc v o) m
      | _ => m
    | none => m) []

/-- `typeof data === "object" && data !== null`. -/
def duIsObject : Value → Bool
  | .obj _ => true
  | .arr _ => true
  | .jsMap _ => true
  | .jsSet _ => true
  | _ => false

/-- First-match property lookup, `undefined` when absent (JS `input[key]`). -/
def objLookup (fields : List (String × Value)) (k : String) : Value :=
  match fields.find? (fun p => p.1 == k) with
  | some p => p.2
  | none => .undefV

/-- Read `data[discriminator]`: field lookup on plain objects; `undefined`
on arrays, Maps and Sets (a non-numeric property name is not an own
property there). -/
def duDiscValue (data : Value) (disc : String) : Value :=
  match data with
  | .obj fields => objLookup fields disc
  | _ => .undefV

/-- The fallback loop of `DiscriminatedUnionSchema._parse` (src/enum.ts
lines 227-233): probe every member in declared order, swallowing ANY
exception (bare `catch`); when all fail, raise a single
`invalid_union_discriminator` issue. -/
def duFallback (options : List DUOption) (data : Value) (ctx : Ctx)
    (cust : Option ErrorCustomizer) (dv : Value) : Except Exc Value :=
  match options with
  | [] =>
    failWith cust "invalid_union_discriminator"
      ("Invalid discriminator value: " ++ jsonDisplay dv) ctx none none
  | o :: rest =>
    match o.parse data ctx with
    | .ok v => .ok v
    | .error _ => duFallback rest data ctx cust dv

/-- `DiscriminatedUnionSchema._parse` (src/enum.ts lines 208-240):
non-object/null input raises `invalid_type` immediately; otherwise read the
discriminator field, look it up in the constructor's map, and on a hit
invoke only the matched member; on a miss, fall back to probing every
member in order. -/
def duParse (disc : String) (options : List DUOption)
    (cust : Option ErrorCustomizer) : Parser := fun data ctx =>
  if duIsObject data then
    let dv := duDiscValue data disc
    match (valueToPrim dv).bind (fun p => duMapGet (duBuildMap disc options) p) with
    | some matched => matched.parse data ctx
    | none => duFallback options data ctx cust dv
  else
    failWith cust "invalid_type"
      ("Expected object, received " ++
        (match data with | .null => "null" | d => jsTypeof d)) ctx none none

/-! ## Object, Record, Map and Set schemas (src/object.ts) -/

/-- The extra-key policy of `ObjectSchema`. -/
inductive UnknownKeysMode where
  | strip
  | strict
  | passthrough
deriving DecidableEq

/-- The configuration of an `ObjectSchema`. -/
structure ObjectCfg where
  shape : List (String × Parser)
  unknownKeys : UnknownKeysMode
  catchall : Option Parser
  errorCustomizer : Option ErrorCustomizer

/-- The known-keys loop of `ObjectSchema._parse` (src/object.ts lines
57-76): validate each declared field (an absent property reads as
`undefined`) at path `ctx ++ [key]`, collecting issues from thrown
`ValidationError`s and propagating any other exception. -/
def objectKnown (shape : List (String × Parser)) (input : List (String × Value))
    (ctx : Ctx) (iss : List Issue) (out : List (String × Value)) :
    Except Exc (List Issue × List (String × Value)) :=
  match shape with
  | [] => .ok (iss, out)
  | (key, schema) :: rest =>
    match schema (objLookup input key) (ctx ++ [.key key]) with
    | .ok v => objectKnown rest input ctx iss (out ++ [(key, v)])
    | .error (.validation is) => objectKnown rest input ctx (iss ++ is) out
    | .error (.other e) => .error (.other e)

/-- The unknown-keys loop of `ObjectSchema._parse` (src/object.ts lines
79-108): for each input key not in the shape, run the catchall when
configured, else raise one `unrecognized_keys` issue at the PARENT path
under `strict`, or copy the value verbatim under `passthrough`. -/
def objectUnknown (cfg : ObjectCfg) (inputKeys : List (String × Value))
    (ctx : Ctx) (iss : List Issue) (out : List (String × Value)) :
    Except Exc (List Issue × List (String × Value)) :=
  match inputKeys with
  | [] => .ok (iss, out)
  | (key, value) :: rest =>
    if (cfg.shape.map (fun p => p.1)).contains key then
      objectUnknown cfg rest ctx iss out
    else
      match cfg.catchall with
      | some c =>
        match c value (ctx ++ [.key key]) with
        | .ok v => objectUnknown cfg rest ctx iss (out ++ [(key, v)])
        | .error (.validation is) => objectUnknown cfg rest ctx (iss ++ is) out
        | .error (.other e) => .error (.other e)
      | none =>
        match cfg.unknownKeys with
        | .strict =>
          objectUnknown cfg rest ctx
            (iss ++ [⟨"unrecognized_keys", ctx, "Unrecognized key: \"" ++ key ++ "\"", none, none⟩]) out
        | .passthrough => objectUnknown cfg rest ctx iss (out ++ [(key, value)])
        | .strip => objectUnknown cfg rest ctx iss out

/-- `ObjectSchema._parse` (src/object.ts lines 35-115): reject non-objects,
`null` and arrays with one `invalid_type` issue; otherwise validate the
declared fields, then apply the extra-key policy (skipped entirely under
plain `strip` with no catchall), and throw a `ValidationError` with all
collected issues when any exist.  A Map or Set instance passes the
`typeof`-object test but has no own enumerable string keys. -/
def objectParse (cfg : ObjectCfg) : Parser := fun data ctx =>
  let run : List (String × Value) → Except Exc Value := fun input =>
    match objectKnown cfg.shape input ctx [] [] with
    | .error e => .error e
    | .ok (iss, out) =>
      match
        (if cfg.unknownKeys ≠ .strip ∨ cfg.catchall.isSome then
          objectUnknown cfg input ctx iss out
        else .ok (iss, out)) with
      | .error e => .error e
      | .ok (iss2, out2) =>
        if iss2.isEmpty then .ok (.obj out2) else .error (.validation iss2)
  match data with
  | .obj fields => run fields
  | .jsMap _ => run []
  | .jsSet _ => run []
  | .arr _ =>
    failWith cfg.errorCustomizer "invalid_type" "Expected object, received array" ctx
      (some "object") (some "array")
  | .null =>
    failWith cfg.errorCustomizer "invalid_type" "Expected object, received null" ctx
      (some "object") (some "null")
  | other =>
    failWith cfg.errorCustomizer "invalid_type"
      ("Expected object, received " ++ jsTypeof other) ctx
      (some "object") (some (jsTypeof other))

/-- `ObjectSchema.strict` (src/object.ts lines 126-130): `_clone`, then set
the clone's extra-key policy; the receiver is untouched. -/
def objectStrict (cfg : ObjectCfg) : ObjectCfg × ObjectCfg :=
  ({ cfg with unknownKeys := .strict }, cfg)

/-- The per-entry loop of `RecordSchema._parse` (src/object.ts lines
259-291): validate each input key against the key schema; on a key failure
collect its issues and `continue` — THE PAIRED VALUE IS SKIPPED; otherwise
validate the value, collecting its issues on failure.  Both validations run
at path `ctx ++ [key]`; any non-`ValidationError` exception propagates. -/
def recordLoop (keyP valP : Parser) (fields : List (String × Value)) (ctx : Ctx)
    (iss : List Issue) (out : List (String × Value)) :
    Except Exc (List Issue × List (String × Value)) :=
  match fields with
  | [] => .ok (iss, out)
  | (key, value) :: rest =>
    match keyP (.str key) (ctx ++ [.key key]) with
    | .error (.validation is) => recordLoop keyP valP rest ctx (iss ++ is) out
    | .error (.other e) => .error (.other e)
    | .ok _ =>
      match valP value (ctx ++ [.key key]) with
      | .ok pv => recordLoop keyP valP rest ctx iss (out ++ [(key, pv)])
      | .error (.validation is) => recordLoop keyP valP rest ctx (iss ++ is) out
      | .error (.other e) => .error (.other e)

/-- `RecordSchema._parse`: reject non-objects, `null` and arrays with one
`invalid_type` issue; otherwise run the per-entry loop over `Object.keys`
and throw a `ValidationError` with all collected issues when any exist. -/
def recordParse (keyP valP : Parser) : Parser := fun data ctx =>
  let run : List (String × Value) → Except Exc Value := fun fields =>
    match recordLoop keyP valP fields ctx [] [] with
    | .error e => .error e
    | .ok (iss, out) =>
      if iss.isEmpty then .ok (.obj out) else .error (.validation iss)
  match data with
  | .obj fields => run fields
  | .jsMap _ => run []
  | .jsSet _ => run []
  | .arr _ =>
    failWith none "invalid_type" "Expected object, received array" ctx
      (some "object") (some "array")
  | .null =>
    failWith none "invalid_type" "Expected object, received null" ctx
      (some "object") (some "null")
  | other =>
    failWith none "invalid_type" ("Expected object, received " ++ jsTypeof other) ctx
      (some "object") (some (jsTypeof other))

/-- `Map.prototype.set` on the output map: replace the value of a key equal
under SameValueZero (primitives; object keys compare by reference and are
appended), else append the new entry. -/
def mapSetEntry (out : List (Value × Value)) (k v : Value) : List (Value × Value) :=
  match valueToPrim k with
  | some p =>
    if out.any (fun e => (valueToPrim e.1).any (fun q => q == p)) then
      out.map (fun e => if (valueToPrim e.1).any (fun q => q == p) then (e.1, v) else e)
    else out ++ [(k, v)]
  | none => out ++ [(k, v)]

/-- The per-entry loop of `MapSchema._parse` (src/object.ts lines 328-347):
key and value of an entry are validated inside ONE `try`, so a key failure
skips the value; issues from thrown `ValidationError`s are collected per
entry at paths `ctx ++ [index, "key"]` / `ctx ++ [index, "value"]`. -/
def mapLoop (keyP valP : Parser) (entries : List (Value × Value)) (ctx : Ctx)
    (i : Nat) (iss : List Issue) (out : List (Value × Value)) :
    Except Exc (List Issue × List (Value × Value)) :=
  match entries with
  | [] => .ok (iss, out)
  | (k, v) :: rest =>
    match keyP k (ctx ++ [.idx i, .key "key"]) with
    | .error (.validation is) => mapLoop keyP valP rest ctx (i + 1) (iss ++ is) out
    | .error (.other e) => .error (.other e)
    | .ok pk =>
      match valP v (ctx ++ [.idx i, .key "value"]) with
      | .error (.validation is) => mapLoop keyP valP rest ctx (i + 1) (iss ++ is) out
      | .error (.other e) => .error (.other e)
      | .ok pv => mapLoop keyP valP rest ctx (i + 1) iss (mapSetEntry out pk pv)

/-- `MapSchema._parse` (src/object.ts lines 316-354): reject anything that
is not a Map instance with one `invalid_type` issue; otherwise run the
per-entry loop — `MapSchema` has NO size constraints — and throw a
`ValidationError` with all collected issues when any exist. -/
def mapParse (keyP valP : Parser) : Parser := fun data ctx =>
  match data with
  | .jsMap entries =>
    match mapLoop keyP valP entries ctx 0 [] [] with
    | .error e => .error e
    | .ok (iss, out) =>
      if iss.isEmpty then .ok (.jsMap out) else .error (.validation iss)
  | other =>
    failWith none "invalid_type" ("Expected Map, received " ++ jsTypeof other) ctx
      (some "Map") (some (jsTypeof other))

/-- The configuration of a `SetSchema` besides its element schema. -/
structure SetCfg where
  min : Option Nat
  max : Option Nat
  size : Option Nat
  errorCustomizer : Option ErrorCustomizer

/-- `new SetSchema(...)`: no size constraints. -/
def setDefault : SetCfg := ⟨none, none, none, none⟩

/-- The size gate of `SetSchema._parse` (src/object.ts lines 378-398),
run BEFORE the member loop, in source order: exact size (`invalid_size`),
then min (`too_small`), then max (`too_big`). -/
def setSizeGate (cfg : SetCfg) (size : Nat) : Option (String × String) :=
  (checkOpt cfg.size (fun s => size != s)
    (fun s => ("invalid_size", "Set must have exactly " ++ toString s ++ " elements"))).orElse fun _ =>
  (checkOpt cfg.min (fun m => decide (size < m))
    (fun m => ("too_small", "Set must have at least " ++ toString m ++ " elements"))).orElse fun _ =>
  (checkOpt cfg.max (fun m => decide (size > m))
    (fun m => ("too_big", "Set must have at most " ++ toString m ++ " elements")))

/-- `Set.prototype.add` on the output set: drop a member already present
under SameValueZero (primitives; object members compare by reference and
are appended). -/
def setAdd (out : List Value) (v : Value) : List Value :=
  match valueToPrim v with
  | some p =>
    if out.any (fun w => (valueToPrim w).any (fun q => q == p)) then out
    else out ++ [v]
  | none => out ++ [v]

/-- The member loop of `SetSchema._parse` (src/object.ts lines 404-420):
validate each member at path `ctx ++ [index]`, collecting issues from
thrown `ValidationError`s. -/
def setLoop (valueP : Parser) (elems : List Value) (ctx : Ctx) (i : Nat)
    (iss : List Issue) (out : List Value) : Except Exc (List Issue × List Value) :=
  match elems with
  | [] => .ok (iss, out)
  | v :: rest =>
    match valueP v (ctx ++ [.idx i]) with
    | .ok pv => setLoop valueP rest ctx (i + 1) iss (setAdd out pv)
    | .error (.validation is) => setLoop valueP rest ctx (i + 1) (iss ++ is) out
    | .error (.other e) => .error (.other e)

/-- `SetSchema._parse` (src/object.ts lines 370-427): reject anything that
is not a Set instance with one `invalid_type` issue; run the size gate
before the member loop; then aggregate the member issues. -/
def setParse (cfg : SetCfg) (valueP : Parser) : Parser := fun data ctx =>
  match data with
  | .jsSet elems =>
    match setSizeGate cfg elems.length with
    | some cm => failWith cfg.errorCustomizer cm.1 cm.2 ctx none none
    | none =>
      match setLoop valueP elems ctx 0 [] [] with
      | .error e => .error e
      | .ok (iss, out) =>
        if iss.isEmpty then .ok (.jsSet out) else .error (.validation iss)
  | other =>
    failWith cfg.errorCustomizer "invalid_type"
      ("Expected Set, received " ++ jsTypeof other) ctx
      (some "Set") (some (jsTypeof other))

/-- `SetSchema.min` (src/object.ts lines 438-442): `_clone` with `_min`
set; the receiver is untouched. -/
def setMin (cfg : SetCfg) (size : Nat) : SetCfg × SetCfg :=
  ({ cfg with min := some size }, cfg)

/-! ## String-to-boolean coercion (src/coerce.ts lines 70-101) -/

/-- The configured token sets of a `StringBoolSchema` (`Set`s modelled as
their insertion-ordered lists; membership is unaffected). -/
structure StringBoolCfg where
  truthy : List String
  falsy : List String
deriving DecidableEq

/-- The default truthy tokens (src/coerce.ts line 77). -/
def defaultTruthy : List String := ["true", "1", "yes", "on", "y", "enabled"]

/-- The default falsy tokens (src/coerce.ts line 80). -/
def defaultFalsy : List String := ["false", "0", "no", "off", "n", "disabled"]

/-- The `StringBoolSchema` constructor: `options?.truthy ?? defaults`,
`options?.falsy ?? defaults`.  Tokens are stored EXACTLY as supplied. -/
def mkStringBoolCfg (truthyOpt falsyOpt : Option (List String)) : StringBoolCfg :=
  ⟨truthyOpt.getD defaultTruthy, falsyOpt.getD defaultFalsy⟩

/-- `StringBoolSchema._parse`: reject non-strings with `invalid_type`;
lower-case THE INPUT and test membership in the truthy set, then the falsy
set, as stored; raise `invalid_value` on a miss. -/
def stringBoolParse (cfg : StringBoolCfg) (cust : Option ErrorCustomizer) : Parser :=
  fun data ctx =>
    match data with
    | .str s =>
      let lower := jsLowerStr s
      if cfg.truthy.contains lower then .ok (.bool true)
      else if cfg.falsy.contains lower then .ok (.bool false)
      else
        failWith cust "invalid_value" ("Cannot parse \"" ++ s ++ "\" as boolean") ctx
          none none
    | other =>
      failWith cust "invalid_type" ("Expected string, received " ++ jsTypeof other) ctx
        none none

/-! ## Claim-side specification functions

These are written from the spec's wording, to be compared against the
source-side parse functions above. -/

/-- `[code]` when a constraint is violated, else `[]`. -/
def flagIf (b : Bool) (code : String) : List String := if b then [code] else []

/-- The violated-code contribution of one optional constraint. -/
def optFlag {α : Type} (o : Option α) (bad : α → Bool) (code : String) : List String :=
  match o with
  | some a => flagIf (bad a) code
  | none => []

/-- Spec, §4.2: the codes of all violated string constraints, listed in the
spec's fixed order — exact length (`invalid_length`), min (`too_small`),
max (`too_big`), prefix, suffix, contains, pattern (each
`invalid_string`). -/
def stringViolations (cfg : StringCfg) (str : String) : List String :=
  optFlag cfg.length (fun L => jsLength str != L) "invalid_length" ++
  (optFlag cfg.min (fun m => decide (jsLength str < m)) "too_small" ++
  (optFlag cfg.max (fun m => decide (jsLength str > m)) "too_big" ++
  (optFlag cfg.startsWith (fun p => ! jsStartsWith str p) "invalid_string" ++
  (optFlag cfg.endsWith (fun p => ! jsEndsWith str p) "invalid_string" ++
  (optFlag cfg.includes (fun p => ! jsIncludes str p) "invalid_string" ++
  optFlag cfg.regex (fun r => ! r.1 str) "invalid_string")))))

/-- Spec, §4.3 (Set): the concatenated issues of validating every member
independently, `none` when some member throws a non-`ValidationError`. -/
def setIssuesSpec (valueP : Parser) (elems : List Value) (ctx : Ctx) (i : Nat) :
    Option (List Issue) :=
  match elems with
  | [] => some []
  | v :: rest =>
    match valueP v (ctx ++ [.idx i]) with
    | .ok _ => setIssuesSpec valueP rest ctx (i + 1)
    | .error (.validation is) => (setIssuesSpec valueP rest ctx (i + 1)).map (is ++ ·)
    | .error (.other _) => none

/-- Spec, §4.3 (Map): the concatenated issues of validating every entry —
its key, then (when the key passed) its value — `none` when something
throws a non-`ValidationError`. -/
def mapIssuesSpec (keyP valP : Parser) (entries : List (Value × Value)) (ctx : Ctx)
    (i : Nat) : Option (List Issue) :=
  match entries with
  | [] => some []
  | (k, v) :: rest =>
    match keyP k (ctx ++ [.idx i, .key "key"]) with
    | .error (.validation is) => (mapIssuesSpec keyP valP rest ctx (i + 1)).map (is ++ ·)
    | .error (.other _) => none
    | .ok _ =>
      match valP v (ctx ++ [.idx i, .key "value"]) with
      | .error (.validation is) => (mapIssuesSpec keyP valP rest ctx (i + 1)).map (is ++ ·)
      | .error (.other _) => none
      | .ok _ => mapIssuesSpec keyP valP rest ctx (i + 1)

/-! ## Concrete schemas used by witnesses -/

/-- A discriminated-union member with shape `{type: literal "a"),
value: string}`, mirroring the spec's §8 probe. -/
def duMemberA : DUOption :=
  ⟨objectParse ⟨[("type", literalParse [.str "a"] none),
                 ("value", stringParse stringDefault)], .strip, none, none⟩,
   some [("type", .lit [.str "a"]), ("value", .nonlit)]⟩

/-- A discriminated-union member with shape `{type: literal "b",
count: number}`. -/
def duMemberB : DUOption :=
  ⟨objectParse ⟨[("type", literalParse [.str "b"] none),
                 ("count", numberParse numberDefault)], .strip, none, none⟩,
   some [("type", .lit [.str "b"]), ("count", .nonlit)]⟩

/-! ## Shared lemmas -/

/-- `_fail` always throws a ValidationError holding exactly one issue, with
the given code, path and diagnostics; only the message depends on the
customizer. -/
theorem failWith_spec (cust : Option ErrorCustomizer) (code msg : String) (ctx : Ctx)
    (e r : Option String) :
    ∃ m, failWith cust code msg ctx e r = .error (.validation [⟨code, ctx, m, e, r⟩]) := by
  unfold failWith
  cases cust with
  | none => exact ⟨msg, rfl⟩
  | some c =>
    cases c with
    | fixed s => exact ⟨s, rfl⟩
    | computed f =>
      cases h : f ⟨code, ctx, msg, e, r⟩ with
      | none => exact ⟨msg, by simp [h]⟩
      | some m => exact ⟨m, by simp [h]⟩

/-- `_fail` never returns normally. -/
theorem failWith_ne_ok (cust : Option ErrorCustomizer) (code msg : String) (ctx : Ctx)
    (e r : Option String) (v : Value) :
    failWith cust code msg ctx e r ≠ .ok v := by
  obtain ⟨m, hm⟩ := failWith_spec cust code msg ctx e r
  rw [hm]
  exact fun h => Except.noConfusion h

/-- Mapping a function over a JS-style short-circuit `orElse`. -/
theorem orElse_map {α β : Type} (f : α → β) (a : Option α) (b : Unit → Option α) :
    (a.orElse b).map f = (a.map f).orElse fun u => (b u).map f := by
  cases a <;> rfl

/-- `head?` of an append as a short-circuit `orElse`. -/
theorem head?_app {α : Type} (l1 l2 : List α) :
    (l1 ++ l2).head? = l1.head?.orElse fun _ => l2.head? := by
  cases l1 <;> rfl

/-- The issue code of one sequential check equals the head of its
violated-code contribution. -/
theorem checkOpt_map_fst {α : Type} (o : Option α) (bad : α → Bool)
    (mk : α → String × String) (code : String) (h : ∀ a, (mk a).1 = code) :
    (checkOpt o bad mk).map Prod.fst = (optFlag o bad code).head? := by
  cases o with
  | none => rfl
  | some a =>
    by_cases hb : bad a
    · simp [checkOpt, optFlag, flagIf, hb, h]
    · simp [checkOpt, optFlag, flagIf, hb]

/-- Characters below the surrogate range survive `Char.ofNat` unchanged. -/
theorem toNat_ofNat_lt {n : Nat} (h : n < 55296) : (Char.ofNat n).toNat = n := by
  unfold Char.ofNat
  rw [dif_pos (Or.inl h)]
  rfl

/-- `toLowerCase` on an ASCII capital adds 32 to the code point. -/
theorem jsToLower_toNat_of_upper {c : Char} (h : 65 ≤ c.toNat ∧ c.toNat ≤ 90) :
    (jsToLower c).toNat = c.toNat + 32 := by
  unfold jsToLower
  rw [if_pos h]
  exact toNat_ofNat_lt (by omega)

/-- `toLowerCase` leaves a non-capital unchanged. -/
theorem jsToLower_eq_of_not {c : Char} (h : ¬(65 ≤ c.toNat ∧ c.toNat ≤ 90)) :
    jsToLower c = c := by
  unfold jsToLower
  rw [if_neg h]

/-- `toUpperCase` on an ASCII lower-case letter subtracts 32. -/
theorem jsToUpper_toNat_of_lower {c : Char} (h : 97 ≤ c.toNat ∧ c.toNat ≤ 122) :
    (jsToUpper c).toNat = c.toNat - 32 := by
  unfold jsToUpper
  rw [if_pos h]
  exact toNat_ofNat_lt (by omega)

/-- `toUpperCase` leaves a non-lower-case letter unchanged. -/
theorem jsToUpper_eq_of_not {c : Char} (h : ¬(97 ≤ c.toNat ∧ c.toNat ≤ 122)) :
    jsToUpper c = c := by
  unfold jsToUpper
  rw [if_neg h]

/-- Per-character lower-casing is idempotent. -/
theorem jsToLower_idem (c : Char) : jsToLower (jsToLower c) = jsToLower c := by
  by_cases h : 65 ≤ c.toNat ∧ c.toNat ≤ 90
  · have ht := jsToLower_toNat_of_upper h
    apply jsToLower_eq_of_not
    rw [ht]
    omega
  · rw [jsToLower_eq_of_not h, jsToLower_eq_of_not h]

/-- Per-character upper-casing is idempotent. -/
theorem jsToUpper_idem (c : Char) : jsToUpper (jsToUpper c) = jsToUpper c := by
  by_cases h : 97 ≤ c.toNat ∧ c.toNat ≤ 122
  · have ht := jsToUpper_toNat_of_lower h
    apply jsToUpper_eq_of_not
    rw [ht]
    omega
  · rw [jsToUpper_eq_of_not h, jsToUpper_eq_of_not h]

/-- Lower-casing absorbs an intervening upper-casing. -/
theorem jsToLower_jsToUpper_jsToLower (c : Char) :
    jsToLower (jsToUpper (jsToLower c)) = jsToLower c := by
  by_cases h : 65 ≤ c.toNat ∧ c.toNat ≤ 90
  · have h1 := jsToLower_toNat_of_upper h
    have e2 : jsToUpper (jsToLower c) = c := by
      unfold jsToUpper
      rw [if_pos (by rw [h1]; omega)]
      rw [h1, Nat.add_sub_cancel, Char.ofNat_toNat]
    rw [e2]
  · by_cases h2 : 97 ≤ c.toNat ∧ c.toNat ≤ 122
    · have e0 : jsToLower c = c := jsToLower_eq_of_not h
      rw [e0]
      have e1 := jsToUpper_toNat_of_lower h2
      unfold jsToLower
      rw [if_pos (by rw [e1]; omega), e1]
      have e3 : c.toNat - 32 + 32 = c.toNat := by omega
      rw [e3, Char.ofNat_toNat]
    · rw [jsToLower_eq_of_not h, jsToUpper_eq_of_not h2, jsToLower_eq_of_not h]

/-- Lower-casing does not create or destroy trim whitespace. -/
theorem isJsWs_jsToLower (c : Char) : isJsWs (jsToLower c) = isJsWs c := by
  by_cases h : 65 ≤ c.toNat ∧ c.toNat ≤ 90
  · have h1 := jsToLower_toNat_of_upper h
    have hA : isJsWs (jsToLower c) = false := by
      unfold isJsWs
      rw [h1]
      simp only [decide_eq_false_iff_not]
      omega
    have hB : isJsWs c = false := by
      unfold isJsWs
      simp only [decide_eq_false_iff_not]
      omega
    rw [hA, hB]
  · rw [jsToLower_eq_of_not h]

/-- Upper-casing does not create or destroy trim whitespace. -/
theorem isJsWs_jsToUpper (c : Char) : isJsWs (jsToUpper c) = isJsWs c := by
  by_cases h : 97 ≤ c.toNat ∧ c.toNat ≤ 122
  · have h1 := jsToUpper_toNat_of_lower h
    have hA : isJsWs (jsToUpper c) = false := by
      unfold isJsWs
      rw [h1]
      simp only [decide_eq_false_iff_not]
      omega
    have hB : isJsWs c = false := by
      unfold isJsWs
      simp only [decide_eq_false_iff_not]
      omega
    rw [hA, hB]
  · rw [jsToUpper_eq_of_not h]

/-- The head surviving `dropWhile` fails the predicate. -/
theorem dropWhile_head_false {α : Type} {p : α → Bool} :
    ∀ (l : List α) (a : α) (t : List α), l.dropWhile p = a :: t → p a = false := by
  intro l
  induction l with
  | nil => intro a t h; simp [List.dropWhile] at h
  | cons x xs ih =>
    intro a t h
    rw [List.dropWhile_cons] at h
    by_cases hx : p x
    · rw [if_pos hx] at h
      exact ih a t h
    · rw [if_neg hx] at h
      injection h with h1 _
      subst h1
      simpa using hx

/-- A list whose head (if any) fails the predicate survives `dropWhile`. -/
theorem dropWhile_eq_self_of_head {α : Type} {p : α → Bool} {l : List α}
    (h : ∀ a t, l = a :: t → p a = false) : l.dropWhile p = l := by
  cases l with
  | nil => rfl
  | cons a t =>
    rw [List.dropWhile_cons, if_neg]
    simp [h a t rfl]

/-- `dropWhile` is idempotent. -/
theorem dropWhile_idem {α : Type} (p : α → Bool) (l : List α) :
    (l.dropWhile p).dropWhile p = l.dropWhile p := by
  apply dropWhile_eq_self_of_head
  intro a t h
  exact dropWhile_head_false l a t h

/-- `trim` is idempotent on character lists. -/
theorem jsTrimL_idem (l : List Char) : jsTrimL (jsTrimL l) = jsTrimL l := by
  unfold jsTrimL
  set A := l.dropWhile isJsWs with hA
  set B := A.reverse.dropWhile isJsWs with hB
  have h1 : B.reverse.dropWhile isJsWs = B.reverse := by
    apply dropWhile_eq_self_of_head
    intro a t h
    have hsub : B <:+ A.reverse := List.dropWhile_suffix _
    have hpre : B.reverse <+: A := by
      have := List.reverse_prefix.mpr hsub
      rwa [List.reverse_reverse] at this
    rw [h] at hpre
    obtain ⟨rest2, hr⟩ := hpre
    have hAeq : A = a :: (t ++ rest2) := by
      rw [← hr]
      rfl
    exact dropWhile_head_false l a (t ++ rest2) (hA ▸ hAeq ▸ rfl)
  rw [h1, List.reverse_reverse]
  have h2 : B.dropWhile isJsWs = B := by
    rw [hB]
    exact dropWhile_idem _ _
  rw [h2]

/-- `trim` commutes with a character map that preserves whitespace-ness. -/
theorem jsTrimL_map {f : Char → Char} (hf : ∀ c, isJsWs (f c) = isJsWs c)
    (l : List Char) : jsTrimL (l.map f) = (jsTrimL l).map f := by
  have hdw : ∀ (m : List Char),
      (m.map f).dropWhile isJsWs = (m.dropWhile isJsWs).map f := by
    intro m
    rw [List.dropWhile_map]
    have hps : (isJsWs ∘ f) = isJsWs := funext fun c => hf c
    rw [hps]
  unfold jsTrimL
  rw [hdw, ← List.map_reverse, hdw, ← List.map_reverse]

/-- Mapping an idempotent function twice equals mapping it once. -/
theorem map_self_idem {α : Type} {f : α → α} (hf : ∀ a, f (f a) = f a)
    (l : List α) : (l.map f).map f = l.map f := by
  rw [List.map_map]
  exact List.map_congr_left (fun a _ => hf a)

/-- `trim` (on strings) is idempotent. -/
theorem jsTrimStr_idem (s : String) : jsTrimStr (jsTrimStr s) = jsTrimStr s := by
  unfold jsTrimStr
  exact congrArg String.mk (jsTrimL_idem s.data)

/-- `toLowerCase` is idempotent. -/
theorem jsLowerStr_idem (s : String) : jsLowerStr (jsLowerStr s) = jsLowerStr s := by
  unfold jsLowerStr
  exact congrArg String.mk (map_self_idem jsToLower_idem s.data)

/-- `toUpperCase` is idempotent. -/
theorem jsUpperStr_idem (s : String) : jsUpperStr (jsUpperStr s) = jsUpperStr s := by
  unfold jsUpperStr
  exact congrArg String.mk (map_self_idem jsToUpper_idem s.data)

/-- `trim` commutes with `toLowerCase`. -/
theorem jsTrimStr_lower_comm (s : String) :
    jsTrimStr (jsLowerStr s) = jsLowerStr (jsTrimStr s) := by
  unfold jsTrimStr jsLowerStr
  exact congrArg String.mk (jsTrimL_map isJsWs_jsToLower s.data)

/-- `trim` commutes with `toUpperCase`. -/
theorem jsTrimStr_upper_comm (s : String) :
    jsTrimStr (jsUpperStr s) = jsUpperStr (jsTrimStr s) := by
  unfold jsTrimStr jsUpperStr
  exact congrArg String.mk (jsTrimL_map isJsWs_jsToUpper s.data)

/-- Lower-casing absorbs an intervening upper-casing (string level). -/
theorem jsLowerStr_upper_lower (s : String) :
    jsLowerStr (jsUpperStr (jsLowerStr s)) = jsLowerStr s := by
  unfold jsLowerStr jsUpperStr
  apply congrArg String.mk
  rw [List.map_map, List.map_map]
  exact List.map_congr_left (fun a _ => jsToLower_jsToUpper_jsToLower a)

/-- The normalization pass of `StringSchema._parse` is idempotent: trimming
and case folding an already-normalized string is a no-op. -/
theorem stringNormalize_idem (cfg : StringCfg) (s : String) :
    stringNormalize cfg (stringNormalize cfg s) = stringNormalize cfg s := by
  unfold stringNormalize
  cases ht : cfg.trim <;> cases hl : cfg.toLowerCase <;> cases hu : cfg.toUpperCase <;>
    simp only [if_true, if_false, Bool.false_eq_true, ite_false, ite_true]
  · exact jsUpperStr_idem s
  · exact jsLowerStr_idem s
  · rw [jsLowerStr_upper_lower]
  · exact jsTrimStr_idem s
  · rw [jsTrimStr_upper_comm, jsTrimStr_idem, jsUpperStr_idem]
  · rw [jsTrimStr_lower_comm, jsTrimStr_idem, jsLowerStr_idem]
  · rw [jsTrimStr_upper_comm, jsTrimStr_lower_comm, jsTrimStr_idem,
      jsLowerStr_upper_lower]

/-- The code reported by the sequential string checks is the head of the
spec-ordered violated-code list. -/
theorem stringFirstViolation_head (cfg : StringCfg) (str : String) :
    (stringFirstViolation cfg str).map Prod.fst = (stringViolations cfg str).head? := by
  unfold stringFirstViolation stringViolations
  rw [orElse_map, orElse_map, orElse_map, orElse_map, orElse_map, orElse_map]
  rw [checkOpt_map_fst cfg.length _ _ "invalid_length" (fun _ => rfl),
      checkOpt_map_fst cfg.min _ _ "too_small" (fun _ => rfl),
      checkOpt_map_fst cfg.max _ _ "too_big" (fun _ => rfl),
      checkOpt_map_fst cfg.startsWith _ _ "invalid_string" (fun _ => rfl),
      checkOpt_map_fst cfg.endsWith _ _ "invalid_string" (fun _ => rfl),
      checkOpt_map_fst cfg.includes _ _ "invalid_string" (fun _ => rfl),
      checkOpt_map_fst cfg.regex _ _ "invalid_string" (fun _ => rfl)]
  rw [head?_app, head?_app, head?_app, head?_app, head?_app, head?_app]

/-- The string checks pass exactly when no constraint is violated. -/
theorem stringFirstViolation_none_iff (cfg : StringCfg) (str : String) :
    stringFirstViolation cfg str = none ↔ stringViolations cfg str = [] := by
  have h := stringFirstViolation_head cfg str
  constructor
  · intro h0
    rw [h0] at h
    cases hv : stringViolations cfg str with
    | nil => rfl
    | cons a t => rw [hv] at h; simp at h
  · intro h0
    rw [h0] at h
    cases hf : stringFirstViolation cfg str with
    | none => rfl
    | some p => rw [hf] at h; simp at h

/-- When constraints are violated, the reported code is the first violated
one in the spec's order. -/
theorem stringFirstViolation_code (cfg : StringCfg) (str : String) (c : String)
    (rest : List String) (hv : stringViolations cfg str = c :: rest) :
    ∃ m, stringFirstViolation cfg str = some (c, m) := by
  have h := stringFirstViolation_head cfg str
  rw [hv] at h
  cases hf : stringFirstViolation cfg str with
  | none => rw [hf] at h; simp at h
  | some p =>
    rw [hf] at h
    simp at h
    exact ⟨p.2, by cases p; simp at h ⊢; exact h⟩

/-! ## Claim theorems -/

/-- C8: For every string schema and every string input, normalization
(trim, then case folding) is applied before any constraint check, and the
checks run in the order exact length, min, max, prefix, suffix, contains,
pattern, reporting only the first violated constraint as a single issue
with its specific code (`stringViolations` lists the violated codes in
exactly that order, evaluated on the normalized string). -/
theorem claim_C8 (cfg : StringCfg) (s : String) (ctx : Ctx) :
    (stringViolations cfg (stringNormalize cfg s) = [] →
      stringParse cfg (.str s) ctx = .ok (.str (stringNormalize cfg s))) ∧
    (∀ c rest, stringViolations cfg (stringNormalize cfg s) = c :: rest →
      ∃ m, stringParse cfg (.str s) ctx =
        .error (.validation [⟨c, ctx, m, none, none⟩])) := by
  constructor
  · intro h0
    have hf := (stringFirstViolation_none_iff cfg _).mpr h0
    simp [stringParse, hf]
  · intro c rest h0
    obtain ⟨m, hm⟩ := stringFirstViolation_code cfg _ c rest h0
    obtain ⟨m2, hm2⟩ := failWith_spec cfg.errorCustomizer c m ctx none none
    exact ⟨m2, by simp [stringParse, hm, hm2]⟩

/-- C8 witness: with no constraints, `"ab"` passes; with exact length 3 and
min 5 both violated, only the first check in order (exact length,
`invalid_length`) is reported. -/
theorem claim_C8_witness :
    stringParse stringDefault (.str "ab") [] = .ok (.str "ab") ∧
    (∃ m, stringParse { stringDefault with length := some 3, min := some 5 }
      (.str "ab") [] = .error (.validation [⟨"invalid_length", [], m, none, none⟩])) := by
  constructor
  · exact (claim_C8 stringDefault "ab" []).1 rfl
  · exact (claim_C8 { stringDefault with length := some 3, min := some 5 } "ab" []).2
      "invalid_length" ["too_small"] rfl

/-- C9: re-validating a string schema's own output through the same schema
succeeds and returns the output unchanged — parse is idempotent on its
produced values (normalization is idempotent and the constraint checks are
deterministic on the normalized string). -/
theorem claim_C9 (cfg : StringCfg) (v : Value) (ctx : Ctx) (out : Value)
    (h : stringParse cfg v ctx = .ok out) :
    stringParse cfg out ctx = .ok out := by
  cases v with
  | str s =>
    simp only [stringParse] at h
    cases hs : stringFirstViolation cfg (stringNormalize cfg s) with
    | some cm =>
      rw [hs] at h
      exact absurd h (failWith_ne_ok _ _ _ _ _ _ _)
    | none =>
      rw [hs] at h
      injection h with h1
      subst h1
      have hidem := stringNormalize_idem cfg s
      simp only [stringParse, hidem, hs]
  | num d => exact absurd h (failWith_ne_ok _ _ _ _ _ _ _)
  | bool b => exact absurd h (failWith_ne_ok _ _ _ _ _ _ _)
  | bigint i => exact absurd h (failWith_ne_ok _ _ _ _ _ _ _)
  | null => exact absurd h (failWith_ne_ok _ _ _ _ _ _ _)
  | undefV => exact absurd h (failWith_ne_ok _ _ _ _ _ _ _)
  | obj fields => exact absurd h (failWith_ne_ok _ _ _ _ _ _ _)
  | arr elems => exact absurd h (failWith_ne_ok _ _ _ _ _ _ _)
  | jsMap entries => exact absurd h (failWith_ne_ok _ _ _ _ _ _ _)
  | jsSet elems => exact absurd h (failWith_ne_ok _ _ _ _ _ _ _)

/-- C9 witness: a trimming, lower-casing schema with a min-length bound
accepts `"  AbC "` producing `"abc"`, and re-parsing `"abc"` is a no-op. -/
theorem claim_C9_witness :
    stringParse { stringDefault with trim := true, toLowerCase := true, min := some 2 }
      (.str "  AbC ") [] = .ok (.str "abc") ∧
    stringParse { stringDefault with trim := true, toLowerCase := true, min := some 2 }
      (.str "abc") [] = .ok (.str "abc") := by
  constructor
  · rfl
  · exact claim_C9 { stringDefault with trim := true, toLowerCase := true, min := some 2 }
      (.str "  AbC ") [] (.str "abc") rfl

/-- C10: the number schema rejects NaN with a single `invalid_type` issue
regardless of any configured constraints (the NaN gate precedes them all),
and no number-schema output is ever NaN. -/
theorem claim_C10 :
    (∀ (cfg : NumberCfg) (ctx : Ctx), ∃ m,
      numberParse cfg (.num .nan) ctx =
        .error (.validation [⟨"invalid_type", ctx, m, none, none⟩])) ∧
    (∀ (cfg : NumberCfg) (v : Value) (ctx : Ctx) (out : Value),
      numberParse cfg v ctx = .ok out → out ≠ .num .nan) := by
  constructor
  · intro cfg ctx
    obtain ⟨m, hm⟩ := failWith_spec cfg.errorCustomizer "invalid_type"
      "Expected number, received NaN" ctx none none
    exact ⟨m, by simp [numberParse, JSNum.isNaN, hm]⟩
  · intro cfg v ctx out h
    cases v with
    | num d =>
      simp only [numberParse] at h
      cases d with
      | nan => exact absurd h (by simp [JSNum.isNaN]; exact failWith_ne_ok _ _ _ _ _ _ _)
      | inf =>
        cases hv : numberFirstViolation cfg .inf with
        | some cm => rw [hv] at h; exact absurd h (failWith_ne_ok _ _ _ _ _ _ _)
        | none =>
          simp only [JSNum.isNaN] at h
          rw [hv] at h
          injection h with h1
          subst h1
          intro hc
          exact Value.noConfusion hc (fun he => JSNum.noConfusion he)
      | ninf =>
        cases hv : numberFirstViolation cfg .ninf with
        | some cm => rw [hv] at h; exact absurd h (failWith_ne_ok _ _ _ _ _ _ _)
        | none =>
          simp only [JSNum.isNaN] at h
          rw [hv] at h
          injection h with h1
          subst h1
          intro hc
          exact Value.noConfusion hc (fun he => JSNum.noConfusion he)
      | fin q =>
        cases hv : numberFirstViolation cfg (.fin q) with
        | some cm => rw [hv] at h; exact absurd h (failWith_ne_ok _ _ _ _ _ _ _)
        | none =>
          simp only [JSNum.isNaN] at h
          rw [hv] at h
          injection h with h1
          subst h1
          intro hc
          exact Value.noConfusion hc (fun he => JSNum.noConfusion he)
    | str s => exact absurd h (failWith_ne_ok _ _ _ _ _ _ _)
    | bool b => exact absurd h (failWith_ne_ok _ _ _ _ _ _ _)
    | bigint i => exact absurd h (failWith_ne_ok _ _ _ _ _ _ _)
    | null => exact absurd h (failWith_ne_ok _ _ _ _ _ _ _)
    | undefV => exact absurd h (failWith_ne_ok _ _ _ _ _ _ _)
    | obj fields => exact absurd h (failWith_ne_ok _ _ _ _ _ _ _)
    | arr elems => exact absurd h (failWith_ne_ok _ _ _ _ _ _ _)
    | jsMap entries => exact absurd h (failWith_ne_ok _ _ _ _ _ _ _)
    | jsSet elems => exact absurd h (failWith_ne_ok _ _ _ _ _ _ _)

/-- C10 witness: a NaN input under a constrained schema yields the single
`invalid_type` issue, and an accepted input's output is not NaN. -/
theorem claim_C10_witness :
    (∃ m, numberParse { numberDefault with min := some (.fin 0) } (.num .nan) [] =
      .error (.validation [⟨"invalid_type", [], m, none, none⟩])) ∧
    Value.num (.fin 5) ≠ Value.num .nan := by
  constructor
  · exact claim_C10.1 { numberDefault with min := some (.fin 0) } []
  · exact claim_C10.2 numberDefault (.num (.fin 5)) [] (.num (.fin 5)) rfl

/-- C1 counterexample: `safeParse` is NOT total — when a transform mapping
throws a non-`ValidationError`, `safeParse` rethrows it (src/base.ts line
29) instead of returning a failure result. -/
theorem claim_C1_counterexample :
    safeParse (transformParse anyParse (fun _ => .error (.other "boom")))
      (.num (.fin 0)) = .error (.other "boom") := rfl

/-- C1 (amended): `safeParse` returns a success result when `_parse`
returns, a failure result carrying the ValidationError when `_parse` throws
one, and rethrows any other exception unchanged — in particular a
non-`ValidationError` thrown by a transform mapping escapes `safeParse`. -/
theorem claim_C1_amended :
    (∀ (p : Parser) (v out : Value),
      p v [] = .ok out → safeParse p v = .ok (.success out)) ∧
    (∀ (p : Parser) (v : Value) (iss : List Issue),
      p v [] = .error (.validation iss) → safeParse p v = .ok (.failure iss)) ∧
    (∀ (p : Parser) (v : Value) (e : String),
      p v [] = .error (.other e) → safeParse p v = .error (.other e)) ∧
    (∀ (inner : Parser) (fn : Value → Except Exc Value) (v w : Value) (e : String),
      inner v [] = .ok w → fn w = .error (.other e) →
      safeParse (transformParse inner fn) v = .error (.other e)) := by
  refine ⟨?_, ?_, ?_, ?_⟩
  · intro p v out h
    simp [safeParse, h]
  · intro p v iss h
    simp [safeParse, h]
  · intro p v e h
    simp [safeParse, h]
  · intro inner fn v w e h1 h2
    simp [safeParse, transformParse, h1, h2]

/-- C1 witness: the three outcomes of `safeParse` at concrete schemas. -/
theorem claim_C1_witness :
    safeParse (stringParse stringDefault) (.str "a") = .ok (.success (.str "a")) ∧
    safeParse (stringParse stringDefault) (.num (.fin 1)) =
      .ok (.failure [⟨"invalid_type", [], "Expected string, received number",
        some "string", some "number"⟩]) ∧
    safeParse (transformParse anyParse (fun _ => .error (.other "x"))) .null =
      .error (.other "x") := by
  refine ⟨claim_C1_amended.1 _ _ _ rfl, claim_C1_amended.2.1 _ _ _ rfl,
    claim_C1_amended.2.2.1 _ _ _ rfl⟩

/-- C3 counterexample: `preprocess` mutates the given schema in place — the
original node no longer parses identically after the derivation: the plain
number schema rejected `"x"`, but after `preprocess` the same object
accepts it. -/
theorem claim_C3_counterexample :
    (preprocess (fun _ => .num (.fin 5)) (numberParse numberDefault)).2 (.str "x") [] ≠
      numberParse numberDefault (.str "x") [] := by
  intro h
  have h1 : (preprocess (fun _ => .num (.fin 5)) (numberParse numberDefault)).2
      (.str "x") [] = Except.ok (Value.num (.fin 5)) := rfl
  have h2 : numberParse numberDefault (.str "x") [] =
      Except.error (Exc.validation [⟨"invalid_type", [], "Expected number, received string",
        some "number", some "string"⟩]) := rfl
  rw [h1, h2] at h
  exact Except.noConfusion h

/-- C3 (amended): chainable configuration methods, the `error` customizer
method and the modifier wrappers each return a new node and leave the
receiver's configuration and parse behaviour unchanged; `preprocess`,
however, mutates the given schema in place (see the counterexample). -/
theorem claim_C3_amended :
    (∀ (s : StringCfg) (len : Nat) (msg : Option String) (v : Value) (ctx : Ctx),
      (stringMin s len msg).2 = s ∧
      stringParse (stringMin s len msg).2 v ctx = stringParse s v ctx) ∧
    (∀ (s : StringCfg) (v : Value) (ctx : Ctx),
      (stringTrim s).2 = s ∧
      stringParse (stringTrim s).2 v ctx = stringParse s v ctx) ∧
    (∀ (s : NumberCfg) (x : JSNum) (msg : Option String) (v : Value) (ctx : Ctx),
      (numberMin s x msg).2 = s ∧
      numberParse (numberMin s x msg).2 v ctx = numberParse s v ctx) ∧
    (∀ (cfg : SetCfg) (n : Nat) (ep : Parser) (v : Value) (ctx : Ctx),
      (setMin cfg n).2 = cfg ∧
      setParse (setMin cfg n).2 ep v ctx = setParse cfg ep v ctx) ∧
    (∀ (cfg : ObjectCfg) (v : Value) (ctx : Ctx),
      (objectStrict cfg).2 = cfg ∧
      objectParse (objectStrict cfg).2 v ctx = objectParse cfg v ctx) ∧
    (∀ (s : StringCfg) (c : ErrorCustomizer) (v : Value) (ctx : Ctx),
      (schemaError s c).2 = s ∧
      stringParse (schemaError s c).2 v ctx = stringParse s v ctx) ∧
    (∀ (inner : Parser), (optionalOf inner).2 = inner) ∧
    (∀ (inner : Parser), (nullableOf inner).2 = inner) ∧
    (∀ (inner : Parser) (d : FnOrVal), (defaultOf inner d).2 = inner) ∧
    (∀ (inner : Parser) (c : FnOrVal), (catchOf inner c).2 = inner) ∧
    (∀ (inner : Parser) (fn : Value → Except Exc Value),
      (transformOf inner fn).2 = inner) ∧
    (∀ (inner : Parser) (p : Value → Bool) (m : String),
      (refineOf inner p m).2 = inner) ∧
    (∀ (a b : Parser), (pipeOf a b).2 = a) :=
  ⟨fun _ _ _ _ _ => ⟨rfl, rfl⟩,
   fun _ _ _ => ⟨rfl, rfl⟩,
   fun _ _ _ _ _ => ⟨rfl, rfl⟩,
   fun _ _ _ _ _ => ⟨rfl, rfl⟩,
   fun _ _ _ => ⟨rfl, rfl⟩,
   fun _ _ _ _ => ⟨rfl, rfl⟩,
   fun _ => rfl, fun _ => rfl, fun _ _ => rfl, fun _ _ => rfl,
   fun _ _ => rfl, fun _ _ _ => rfl, fun _ _ => rfl⟩

/-- C5 counterexample: token matching is not case-insensitive in the
configured token set — with truthy tokens `["TRUE"]`, the input `"TRUE"`
(a case-insensitive truthy match) raises `invalid_value` instead of
returning `true`, because only the input is lower-cased. -/
theorem claim_C5_counterexample :
    stringBoolParse (mkStringBoolCfg (some ["TRUE"]) none) none (.str "TRUE") [] =
      .error (.validation [⟨"invalid_value", [],
        "Cannot parse \"TRUE\" as boolean", none, none⟩]) ∧
    stringBoolParse (mkStringBoolCfg (some ["TRUE"]) none) none (.str "TRUE") [] ≠
      .ok (.bool true) := by
  refine ⟨rfl, ?_⟩
  intro h
  have h1 : stringBoolParse (mkStringBoolCfg (some ["TRUE"]) none) none (.str "TRUE") [] =
      Except.error (Exc.validation [⟨"invalid_value", [],
        "Cannot parse \"TRUE\" as boolean", none, none⟩]) := rfl
  rw [h1] at h
  exact Except.noConfusion h

/-- C5 (amended): the validator lower-cases the input and tests exact
membership in the configured token lists (truthy before falsy), raising
`invalid_value` on a miss and `invalid_type` on non-strings; the defaults
are exactly the documented sets, and matching against the default
(all-lower-case) tokens is case-insensitive in the input. -/
theorem claim_C5_amended :
    (mkStringBoolCfg none none =
      ⟨["true", "1", "yes", "on", "y", "enabled"],
       ["false", "0", "no", "off", "n", "disabled"]⟩) ∧
    (∀ t f cust s ctx, (mkStringBoolCfg t f).truthy.contains (jsLowerStr s) = true →
      stringBoolParse (mkStringBoolCfg t f) cust (.str s) ctx = .ok (.bool true)) ∧
    (∀ t f cust s ctx, (mkStringBoolCfg t f).truthy.contains (jsLowerStr s) = false →
      (mkStringBoolCfg t f).falsy.contains (jsLowerStr s) = true →
      stringBoolParse (mkStringBoolCfg t f) cust (.str s) ctx = .ok (.bool false)) ∧
    (∀ t f cust s ctx, (mkStringBoolCfg t f).truthy.contains (jsLowerStr s) = false →
      (mkStringBoolCfg t f).falsy.contains (jsLowerStr s) = false →
      ∃ m, stringBoolParse (mkStringBoolCfg t f) cust (.str s) ctx =
        .error (.validation [⟨"invalid_value", ctx, m, none, none⟩])) ∧
    (∀ cust s ctx b,
      stringBoolParse (mkStringBoolCfg none none) cust (.str s) ctx = .ok (.bool b) ↔
      stringBoolParse (mkStringBoolCfg none none) cust (.str (jsLowerStr s)) ctx =
        .ok (.bool b)) ∧
    (∀ t f cust n ctx, ∃ m,
      stringBoolParse (mkStringBoolCfg t f) cust (.num n) ctx =
        .error (.validation [⟨"invalid_type", ctx, m, none, none⟩])) := by
  refine ⟨rfl, ?_, ?_, ?_, ?_, ?_⟩
  · intro t f cust s ctx h
    have h' : jsLowerStr s ∈ (mkStringBoolCfg t f).truthy := by simpa using h
    simp [stringBoolParse, h']
  · intro t f cust s ctx h1 h2
    have h1' : jsLowerStr s ∉ (mkStringBoolCfg t f).truthy := by simpa using h1
    have h2' : jsLowerStr s ∈ (mkStringBoolCfg t f).falsy := by simpa using h2
    simp [stringBoolParse, h1', h2']
  · intro t f cust s ctx h1 h2
    have h1' : jsLowerStr s ∉ (mkStringBoolCfg t f).truthy := by simpa using h1
    have h2' : jsLowerStr s ∉ (mkStringBoolCfg t f).falsy := by simpa using h2
    obtain ⟨m, hm⟩ := failWith_spec cust "invalid_value"
      ("Cannot parse \"" ++ s ++ "\" as boolean") ctx none none
    exact ⟨m, by simp [stringBoolParse, h1', h2', hm]⟩
  · intro cust s ctx b
    simp only [stringBoolParse, jsLowerStr_idem]
    by_cases h1 : jsLowerStr s ∈ (mkStringBoolCfg none none).truthy
    · simp [h1]
    · by_cases h2 : jsLowerStr s ∈ (mkStringBoolCfg none none).falsy
      · simp [h1, h2]
      · have h1c : (mkStringBoolCfg none none).truthy.contains (jsLowerStr s) = false := by
          simpa using h1
        have h2c : (mkStringBoolCfg none none).falsy.contains (jsLowerStr s) = false := by
          simpa using h2
        simp only [h1c, h2c, Bool.false_eq_true, if_false]
        constructor <;> intro h <;> exact absurd h (failWith_ne_ok _ _ _ _ _ _ _)
  · intro t f cust n ctx
    obtain ⟨m, hm⟩ := failWith_spec cust "invalid_type"
      ("Expected string, received number") ctx none none
    exact ⟨m, by simp [stringBoolParse, jsTypeof, hm]⟩

/-- C5 witness: default tokens accept `"Yes"` (case-insensitively) as true
and `"0"` as false, and reject `"maybe"` with `invalid_value`. -/
theorem claim_C5_witness :
    stringBoolParse (mkStringBoolCfg none none) none (.str "Yes") [] = .ok (.bool true) ∧
    stringBoolParse (mkStringBoolCfg none none) none (.str "0") [] = .ok (.bool false) ∧
    (∃ m, stringBoolParse (mkStringBoolCfg none none) none (.str "maybe") [] =
      .error (.validation [⟨"invalid_value", [], m, none, none⟩])) := by
  refine ⟨?_, ?_, ?_⟩
  · exact claim_C5_amended.2.1 none none none "Yes" [] (by decide)
  · exact claim_C5_amended.2.2.1 none none none "0" [] (by decide) (by decide)
  · exact claim_C5_amended.2.2.2.1 none none none "maybe" [] (by decide) (by decide)

/-- C2 counterexample: in a record, a failing key SKIPS validation of the
paired value (`continue` in src/object.ts line 275): key schema
`string().min(3)`, value schema `number()`, input `{"ab": "x"}` — the value
`"x"` would fail the number schema, yet only the key's issue is reported. -/
theorem claim_C2_counterexample :
    recordParse (stringParse { stringDefault with min := some 3 })
      (numberParse numberDefault) (.obj [("ab", .str "x")]) [] =
      .error (.validation [⟨"too_small", [.key "ab"],
        "String must be at least 3 characters", none, none⟩]) ∧
    numberParse numberDefault (.str "x") [Seg.key "ab"] =
      .error (.validation [⟨"invalid_type", [.key "ab"],
        "Expected number, received string", some "number", some "string"⟩]) ∧
    (⟨"invalid_type", [Seg.key "ab"], "Expected number, received string",
        some "number", some "string"⟩ : Issue) ∉
      [(⟨"too_small", [Seg.key "ab"], "String must be at least 3 characters",
        none, none⟩ : Issue)] := by
  refine ⟨rfl, rfl, by decide⟩

/-- C2 (amended): when an entry's key fails key validation, its issues are
recorded and the paired value is NOT validated (the entry is skipped);
issues are still aggregated across entries. -/
theorem claim_C2_amended :
    (∀ (kP vP vP' : Parser) (k : String) (v : Value) (ctx : Ctx) (iss : List Issue),
      kP (.str k) (ctx ++ [.key k]) = .error (.validation iss) →
      recordParse kP vP (.obj [(k, v)]) ctx = recordParse kP vP' (.obj [(k, v)]) ctx) ∧
    (∀ (kP vP : Parser) (k : String) (v : Value) (ctx : Ctx) (iss : List Issue),
      kP (.str k) (ctx ++ [.key k]) = .error (.validation iss) → iss ≠ [] →
      recordParse kP vP (.obj [(k, v)]) ctx = .error (.validation iss)) ∧
    (∀ (kP vP : Parser) (k1 k2 : String) (v1 v2 : Value) (ctx : Ctx)
       (is1 is2 : List Issue),
      kP (.str k1) (ctx ++ [.key k1]) = .error (.validation is1) →
      kP (.str k2) (ctx ++ [.key k2]) = .error (.validation is2) →
      is1 ++ is2 ≠ [] →
      recordParse kP vP (.obj [(k1, v1), (k2, v2)]) ctx =
        .error (.validation (is1 ++ is2))) := by
  refine ⟨?_, ?_, ?_⟩
  · intro kP vP vP' k v ctx iss h
    simp [recordParse, recordLoop, h]
  · intro kP vP k v ctx iss h hne
    have he : iss.isEmpty = false := by
      cases iss with
      | nil => exact absurd rfl hne
      | cons a t => rfl
    simp [recordParse, recordLoop, h, he]
  · intro kP vP k1 k2 v1 v2 ctx is1 is2 h1 h2 hne
    have he : (is1 ++ is2).isEmpty = false := by
      cases h12 : is1 ++ is2 with
      | nil => exact absurd h12 hne
      | cons a t => rfl
    simp [recordParse, recordLoop, h1, h2, he]

/-- C2 witness: concrete instances of the amended behaviour (key schema
`string().min(3)`). -/
theorem claim_C2_witness :
    recordParse (stringParse { stringDefault with min := some 3 })
      (numberParse numberDefault) (.obj [("ab", .str "x")]) [] =
      recordParse (stringParse { stringDefault with min := some 3 })
        (booleanParse none) (.obj [("ab", .str "x")]) [] ∧
    recordParse (stringParse { stringDefault with min := some 3 })
      (numberParse numberDefault) (.obj [("ab", .str "x"), ("cd", .str "y")]) [] =
      .error (.validation
        ([⟨"too_small", [.key "ab"], "String must be at least 3 characters", none, none⟩] ++
         [⟨"too_small", [.key "cd"], "String must be at least 3 characters", none, none⟩])) := by
  constructor
  · exact claim_C2_amended.1 (stringParse { stringDefault with min := some 3 })
      (numberParse numberDefault) (booleanParse none) "ab" (.str "x") []
      [⟨"too_small", [.key "ab"], "String must be at least 3 characters", none, none⟩] rfl
  · exact claim_C2_amended.2.2 (stringParse { stringDefault with min := some 3 })
      (numberParse numberDefault) "ab" "cd" (.str "x") (.str "y") []
      [⟨"too_small", [.key "ab"], "String must be at least 3 characters", none, none⟩]
      [⟨"too_small", [.key "cd"], "String must be at least 3 characters", none, none⟩]
      rfl rfl (by decide)

/-- C6: a plain union returns the output of the first alternative (in
declared order) that validates successfully, independent of every later
alternative; when every alternative fails, it raises a single
`invalid_union` issue (the rejected alternatives' issues are discarded). -/
theorem claim_C6 :
    (∀ (pre : List Parser) (s : Parser) (post : List Parser)
       (cust : Option ErrorCustomizer) (v : Value) (ctx : Ctx) (out : Value),
      (∀ p ∈ pre, ∃ iss, p v ctx = .error (.validation iss)) →
      s v ctx = .ok out →
      unionParse (pre ++ s :: post) cust v ctx = .ok out) ∧
    (∀ (options : List Parser) (cust : Option ErrorCustomizer) (v : Value) (ctx : Ctx),
      (∀ p ∈ options, ∃ iss, p v ctx = .error (.validation iss)) →
      ∃ m, unionParse options cust v ctx =
        .error (.validation [⟨"invalid_union", ctx, m, none, none⟩])) := by
  constructor
  · intro pre s post cust v ctx out hpre hs
    induction pre with
    | nil => simp [unionParse, unionGo, hs]
    | cons p rest ih =>
      obtain ⟨iss, hp⟩ := hpre p (by simp)
      have hrest := ih (fun q hq => hpre q (by simp [hq]))
      simp only [unionParse] at hrest ⊢
      rw [List.cons_append, unionGo, hp]
      exact hrest
  · intro options cust v ctx hall
    induction options with
    | nil =>
      obtain ⟨m, hm⟩ := failWith_spec cust "invalid_union"
        "Invalid input: does not match any union member" ctx none none
      exact ⟨m, by simp [unionParse, unionGo, hm]⟩
    | cons p rest ih =>
      obtain ⟨iss, hp⟩ := hall p (by simp)
      obtain ⟨m, hm⟩ := ih (fun q hq => hall q (by simp [hq]))
      refine ⟨m, ?_⟩
      simp only [unionParse] at hm ⊢
      rw [unionGo, hp]
      exact hm

/-- C6 witness: `union([number, string])` on `"a"` returns the string
alternative's output; `union([number, boolean])` on `"a"` raises the single
synthetic `invalid_union` issue. -/
theorem claim_C6_witness :
    unionParse [numberParse numberDefault, stringParse stringDefault] none
      (.str "a") [] = .ok (.str "a") ∧
    (∃ m, unionParse [numberParse numberDefault, booleanParse none] none
      (.str "a") [] = .error (.validation [⟨"invalid_union", [], m, none, none⟩])) := by
  constructor
  · exact claim_C6.1 [numberParse numberDefault] (stringParse stringDefault) [] none
      (.str "a") [] (.str "a")
      (by
        intro p hp
        simp only [List.mem_singleton] at hp
        subst hp
        exact ⟨_, rfl⟩) rfl
  · exact claim_C6.2 [numberParse numberDefault, booleanParse none] none (.str "a") []
      (by
        intro p hp
        simp only [List.mem_cons, List.not_mem_nil, or_false] at hp
        rcases hp with h | h <;> subst h
        · exact ⟨_, rfl⟩
        · exact ⟨_, rfl⟩)

/-- The discriminated-union fallback returns the first member (in declared
order) that succeeds, regardless of the members after it. -/
theorem duFallback_first_success (pre : List DUOption) (s : DUOption)
    (post : List DUOption) (v : Value) (ctx : Ctx) (cust : Option ErrorCustomizer)
    (dv : Value) (out : Value)
    (hpre : ∀ o ∈ pre, ∃ e, o.parse v ctx = .error e)
    (hs : s.parse v ctx = .ok out) :
    duFallback (pre ++ s :: post) v ctx cust dv = .ok out := by
  induction pre with
  | nil => simp [duFallback, hs]
  | cons o rest ih =>
    obtain ⟨e, he⟩ := hpre o (by simp)
    have hrest := ih (fun q hq => hpre q (by simp [hq]))
    rw [List.cons_append, duFallback, he]
    exact hrest

/-- When every member fails, the fallback raises a single
`invalid_union_discriminator` issue. -/
theorem duFallback_all_fail (options : List DUOption) (v : Value) (ctx : Ctx)
    (cust : Option ErrorCustomizer) (dv : Value)
    (hall : ∀ o ∈ options, ∃ e, o.parse v ctx = .error e) :
    ∃ m, duFallback options v ctx cust dv =
      .error (.validation [⟨"invalid_union_discriminator", ctx, m, none, none⟩]) := by
  induction options with
  | nil =>
    obtain ⟨m, hm⟩ := failWith_spec cust "invalid_union_discriminator"
      ("Invalid discriminator value: " ++ jsonDisplay dv) ctx none none
    exact ⟨m, by simp [duFallback, hm]⟩
  | cons o rest ih =>
    obtain ⟨e, he⟩ := hall o (by simp)
    obtain ⟨m, hm⟩ := ih (fun q hq => hall q (by simp [hq]))
    refine ⟨m, ?_⟩
    rw [duFallback, he]
    exact hm

/-- C7: a discriminated union rejects non-object/null input with a single
`invalid_type` issue; an input whose discriminator value is in the
constructor's lookup map is validated by the matched member only (the
result is exactly that member's result); an input with no exact match is
probed against every member in declared order, and only after all fail is a
single `invalid_union_discriminator` issue raised. -/
theorem claim_C7 :
    (∀ (disc : String) (options : List DUOption) (cust : Option ErrorCustomizer)
       (v : Value) (ctx : Ctx), duIsObject v = false → ∃ m,
      duParse disc options cust v ctx =
        .error (.validation [⟨"invalid_type", ctx, m, none, none⟩])) ∧
    (∀ (disc : String) (options : List DUOption) (cust : Option ErrorCustomizer)
       (v : Value) (ctx : Ctx) (matched : DUOption),
      duIsObject v = true →
      (valueToPrim (duDiscValue v disc)).bind
        (fun p => duMapGet (duBuildMap disc options) p) = some matched →
      duParse disc options cust v ctx = matched.parse v ctx) ∧
    (∀ (disc : String) (pre : List DUOption) (s : DUOption) (post : List DUOption)
       (cust : Option ErrorCustomizer) (v : Value) (ctx : Ctx) (out : Value),
      duIsObject v = true →
      (valueToPrim (duDiscValue v disc)).bind
        (fun p => duMapGet (duBuildMap disc (pre ++ s :: post)) p) = none →
      (∀ o ∈ pre, ∃ e, o.parse v ctx = .error e) →
      s.parse v ctx = .ok out →
      duParse disc (pre ++ s :: post) cust v ctx = .ok out) ∧
    (∀ (disc : String) (options : List DUOption) (cust : Option ErrorCustomizer)
       (v : Value) (ctx : Ctx),
      duIsObject v = true →
      (valueToPrim (duDiscValue v disc)).bind
        (fun p => duMapGet (duBuildMap disc options) p) = none →
      (∀ o ∈ options, ∃ e, o.parse v ctx = .error e) →
      ∃ m, duParse disc options cust v ctx =
        .error (.validation [⟨"invalid_union_discriminator", ctx, m, none, none⟩])) := by
  refine ⟨?_, ?_, ?_, ?_⟩
  · intro disc options cust v ctx h
    simp only [duParse, h, Bool.false_eq_true, if_false]
    exact failWith_spec cust "invalid_type" _ ctx none none
  · intro disc options cust v ctx matched hobj hlook
    simp [duParse, hobj, hlook]
  · intro disc pre s post cust v ctx out hobj hlook hpre hs
    simp only [duParse, hobj, if_true, hlook]
    exact duFallback_first_success pre s post v ctx cust _ out hpre hs
  · intro disc options cust v ctx hobj hlook hall
    obtain ⟨m, hm⟩ := duFallback_all_fail options v ctx cust (duDiscValue v disc) hall
    refine ⟨m, ?_⟩
    simp only [duParse, hobj, if_true, hlook]
    exact hm

/-- C7 witness, mirroring the spec's probe: keyed `"type"` with members
`"a"`, `"b"`, the input `{type:"a",value:"x"}` is validated by member `"a"`
alone (and succeeds); `{type:"c"}` raises `invalid_union_discriminator`
after both members fail; a number input raises `invalid_type`. -/
theorem claim_C7_witness :
    duParse "type" [duMemberA, duMemberB] none
      (.obj [("type", .str "a"), ("value", .str "x")]) [] =
      duMemberA.parse (.obj [("type", .str "a"), ("value", .str "x")]) [] ∧
    duMemberA.parse (.obj [("type", .str "a"), ("value", .str "x")]) [] =
      .ok (.obj [("type", .str "a"), ("value", .str "x")]) ∧
    (∃ m, duParse "type" [duMemberA, duMemberB] none (.obj [("type", .str "c")]) [] =
      .error (.validation [⟨"invalid_union_discriminator", [], m, none, none⟩])) ∧
    (∃ m, duParse "type" [duMemberA, duMemberB] none (.num (.fin 3)) [] =
      .error (.validation [⟨"invalid_type", [], m, none, none⟩])) := by
  refine ⟨?_, rfl, ?_, ?_⟩
  · exact claim_C7.2.1 "type" [duMemberA, duMemberB] none
      (.obj [("type", .str "a"), ("value", .str "x")]) [] duMemberA rfl rfl
  · exact claim_C7.2.2.2 "type" [duMemberA, duMemberB] none
      (.obj [("type", .str "c")]) [] rfl rfl
      (by
        intro o ho
        simp only [List.mem_cons, List.not_mem_nil, or_false] at ho
        rcases ho with h | h <;> subst h
        · exact ⟨_, rfl⟩
        · exact ⟨_, rfl⟩)
  · exact claim_C7.1 "type" [duMemberA, duMemberB] none (.num (.fin 3)) [] rfl

/-- The Set member loop returns the accumulated issues followed by the
per-member issues, when no member throws a non-`ValidationError`. -/
theorem setLoop_ok (ep : Parser) (elems : List Value) (ctx : Ctx) :
    ∀ (i : Nat) (iss0 : List Issue) (out0 : List Value) (isr : List Issue),
    setIssuesSpec ep elems ctx i = some isr →
    ∃ out, setLoop ep elems ctx i iss0 out0 = .ok (iss0 ++ isr, out) := by
  induction elems with
  | nil =>
    intro i iss0 out0 isr h
    simp only [setIssuesSpec, Option.some.injEq] at h
    subst h
    exact ⟨out0, by simp [setLoop]⟩
  | cons v rest ih =>
    intro i iss0 out0 isr h
    cases hv : ep v (ctx ++ [.idx i]) with
    | ok pv =>
      simp only [setIssuesSpec, hv] at h
      obtain ⟨out, hout⟩ := ih (i + 1) iss0 (setAdd out0 pv) isr h
      exact ⟨out, by simp only [setLoop, hv]; exact hout⟩
    | error e =>
      cases e with
      | validation is =>
        simp only [setIssuesSpec, hv] at h
        cases hr : setIssuesSpec ep rest ctx (i + 1) with
        | none => rw [hr] at h; simp at h
        | some isr' =>
          rw [hr] at h
          simp at h
          obtain ⟨out, hout⟩ := ih (i + 1) (iss0 ++ is) out0 isr' hr
          refine ⟨out, ?_⟩
          simp only [setLoop, hv]
          rw [hout, List.append_assoc, h]
      | other e0 =>
        simp only [setIssuesSpec, hv] at h
        exact Option.noConfusion h

/-- The Map entry loop returns the accumulated issues followed by the
per-entry issues, when nothing throws a non-`ValidationError`. -/
theorem mapLoop_ok (kP vP : Parser) (entries : List (Value × Value)) (ctx : Ctx) :
    ∀ (i : Nat) (iss0 : List Issue) (out0 : List (Value × Value)) (isr : List Issue),
    mapIssuesSpec kP vP entries ctx i = some isr →
    ∃ out, mapLoop kP vP entries ctx i iss0 out0 = .ok (iss0 ++ isr, out) := by
  induction entries with
  | nil =>
    intro i iss0 out0 isr h
    simp only [mapIssuesSpec, Option.some.injEq] at h
    subst h
    exact ⟨out0, by simp [mapLoop]⟩
  | cons e rest ih =>
    intro i iss0 out0 isr h
    obtain ⟨k, v⟩ := e
    cases hk : kP k (ctx ++ [.idx i, .key "key"]) with
    | ok pk =>
      cases hv : vP v (ctx ++ [.idx i, .key "value"]) with
      | ok pv =>
        simp only [mapIssuesSpec, hk, hv] at h
        obtain ⟨out, hout⟩ := ih (i + 1) iss0 (mapSetEntry out0 pk pv) isr h
        exact ⟨out, by simp only [mapLoop, hk, hv]; exact hout⟩
      | error e2 =>
        cases e2 with
        | validation is =>
          simp only [mapIssuesSpec, hk, hv] at h
          cases hr : mapIssuesSpec kP vP rest ctx (i + 1) with
          | none => rw [hr] at h; simp at h
          | some isr' =>
            rw [hr] at h
            simp at h
            obtain ⟨out, hout⟩ := ih (i + 1) (iss0 ++ is) out0 isr' hr
            refine ⟨out, ?_⟩
            simp only [mapLoop, hk, hv]
            rw [hout, List.append_assoc, h]
        | other e0 =>
          simp only [mapIssuesSpec, hk, hv] at h
          exact Option.noConfusion h
    | error e2 =>
      cases e2 with
      | validation is =>
        simp only [mapIssuesSpec, hk] at h
        cases hr : mapIssuesSpec kP vP rest ctx (i + 1) with
        | none => rw [hr] at h; simp at h
        | some isr' =>
          rw [hr] at h
          simp at h
          obtain ⟨out, hout⟩ := ih (i + 1) (iss0 ++ is) out0 isr' hr
          refine ⟨out, ?_⟩
          simp only [mapLoop, hk]
          rw [hout, List.append_assoc, h]
      | other e0 =>
        simp only [mapIssuesSpec, hk] at h
        exact Option.noConfusion h

/-- C4: Set size constraints are checked before any member validation — a
violating input yields a single size issue with the gate's code and the
result is independent of the member validator; the gate fires exactly when
a configured constraint (exact size, min, max) is violated; a conforming
Set proceeds to per-member issue aggregation.  `MapSchema` exposes NO size
constraints, so the Map half of the claim is vacuous: every Map input
proceeds directly to per-entry aggregation. -/
theorem claim_C4 :
    (∀ (cfg : SetCfg) (ep ep' : Parser) (elems : List Value) (ctx : Ctx) (c msg : String),
      setSizeGate cfg elems.length = some (c, msg) →
      (∃ m, setParse cfg ep (.jsSet elems) ctx =
        .error (.validation [⟨c, ctx, m, none, none⟩])) ∧
      setParse cfg ep (.jsSet elems) ctx = setParse cfg ep' (.jsSet elems) ctx) ∧
    (∀ (cfg : SetCfg) (n : Nat),
      (setSizeGate cfg n).isSome = true ↔
        ((∃ s, cfg.size = some s ∧ n ≠ s) ∨ (∃ m, cfg.min = some m ∧ n < m) ∨
         (∃ M, cfg.max = some M ∧ n > M))) ∧
    (∀ (cfg : SetCfg) (ep : Parser) (elems : List Value) (ctx : Ctx) (iss : List Issue),
      setSizeGate cfg elems.length = none →
      setIssuesSpec ep elems ctx 0 = some iss →
      (iss = [] → ∃ out, setParse cfg ep (.jsSet elems) ctx = .ok out) ∧
      (iss ≠ [] → setParse cfg ep (.jsSet elems) ctx = .error (.validation iss))) ∧
    (∀ (kP vP : Parser) (entries : List (Value × Value)) (ctx : Ctx) (iss : List Issue),
      mapIssuesSpec kP vP entries ctx 0 = some iss →
      (iss = [] → ∃ out, mapParse kP vP (.jsMap entries) ctx = .ok out) ∧
      (iss ≠ [] → mapParse kP vP (.jsMap entries) ctx = .error (.validation iss))) := by
  refine ⟨?_, ?_, ?_, ?_⟩
  · intro cfg ep ep' elems ctx c msg h
    constructor
    · simp only [setParse, h]
      exact failWith_spec cfg.errorCustomizer c msg ctx none none
    · simp [setParse, h]
  · intro cfg n
    rcases cfg with ⟨mn, mx, sz, ec⟩
    cases sz <;> cases mn <;> cases mx <;>
      simp [setSizeGate, checkOpt, Option.orElse, bne_iff_ne] <;>
      split_ifs <;> simp_all
  · intro cfg ep elems ctx iss hgate hspec
    obtain ⟨out, hout⟩ := setLoop_ok ep elems ctx 0 [] [] iss hspec
    rw [List.nil_append] at hout
    constructor
    · intro he
      subst he
      exact ⟨.jsSet out, by simp [setParse, hgate, hout]⟩
    · intro hne
      have he : iss.isEmpty = false := by
        cases iss with
        | nil => exact absurd rfl hne
        | cons a t => rfl
      simp [setParse, hgate, hout, he]
  · intro kP vP entries ctx iss hspec
    obtain ⟨out, hout⟩ := mapLoop_ok kP vP entries ctx 0 [] [] iss hspec
    rw [List.nil_append] at hout
    constructor
    · intro he
      subst he
      exact ⟨.jsMap out, by simp [mapParse, hout]⟩
    · intro hne
      have he : iss.isEmpty = false := by
        cases iss with
        | nil => exact absurd rfl hne
        | cons a t => rfl
      simp [mapParse, hout, he]

/-- C4 witness: `set(number).min(2)` on a one-member Set raises the single
`too_small` size issue with the member validator irrelevant; an
unconstrained Set aggregates its member issues; a Map whose entry has a
failing key aggregates per-entry issues directly (no size gate exists). -/
theorem claim_C4_witness :
    (∃ m, setParse { setDefault with min := some 2 } (numberParse numberDefault)
      (.jsSet [.num (.fin 1)]) [] =
      .error (.validation [⟨"too_small", [], m, none, none⟩])) ∧
    setParse { setDefault with min := some 2 } (numberParse numberDefault)
      (.jsSet [.num (.fin 1)]) [] =
      setParse { setDefault with min := some 2 } (booleanParse none)
        (.jsSet [.num (.fin 1)]) [] ∧
    setParse setDefault (numberParse numberDefault)
      (.jsSet [.str "a", .num (.fin 1)]) [] =
      .error (.validation [⟨"invalid_type", [.idx 0],
        "Expected number, received string", some "number", some "string"⟩]) ∧
    mapParse (stringParse { stringDefault with min := some 3 })
      (numberParse numberDefault) (.jsMap [(.str "ab", .str "x")]) [] =
      .error (.validation [⟨"too_small", [.idx 0, .key "key"],
        "String must be at least 3 characters", none, none⟩]) := by
  refine ⟨?_, ?_, ?_, ?_⟩
  · exact (claim_C4.1 { setDefault with min := some 2 } (numberParse numberDefault)
      (booleanParse none) [.num (.fin 1)] [] "too_small"
      "Set must have at least 2 elements" rfl).1
  · exact (claim_C4.1 { setDefault with min := some 2 } (numberParse numberDefault)
      (booleanParse none) [.num (.fin 1)] [] "too_small"
      "Set must have at least 2 elements" rfl).2
  · exact (claim_C4.2.2.1 setDefault (numberParse numberDefault)
      [.str "a", .num (.fin 1)] []
      [⟨"invalid_type", [.idx 0], "Expected number, received string",
        some "number", some "string"⟩] rfl rfl).2 (by simp)
  · exact (claim_C4.2.2.2 (stringParse { stringDefault with min := some 3 })
      (numberParse numberDefault) [(.str "ab", .str "x")] []
      [⟨"too_small", [.idx 0, .key "key"],
        "String must be at least 3 characters", none, none⟩] rfl).2 (by simp)

end FastZod
